import Mathlib

/-!
Verification of `update_m3u_acestream.py` (repository juanqp07/acestream).

This file gives a shallow embedding of the script's pure core — the
acestream/host:port URI rewriter built on the module-level regular
expressions, the `download_url` retry loop, the IPFS gateway candidate
construction of `try_download_with_gateways`, the combining expression of
`main`, and the control flow of `main` itself (including the Python name
resolution of the identifier `p` at line 465) — and proves or refutes the
frozen claims about them.

Modelling conventions:
* Python `str` is modelled as `String` / `List Char`; byte-level charset
  decoding is not modelled (the network oracle yields already-decoded text).
* The two module-level regexes `PAT_ACESTREAM` and `PAT_HOST_PORT_HASH` are
  embedded as hand-specialised matchers.  Both patterns are deterministic
  once the standard leftmost/greedy backtracking rules are unfolded:
  `[^/\s:]+` must be followed by `:` which it cannot contain, `\d{1,5}` must
  be followed by `/`, and the optional groups are tried
  longest-alternative-first.  `\s` and `\d` are modelled by their ASCII
  subsets (no input considered here contains non-ASCII whitespace/digits).
* `re.sub` is modelled by a fuel-indexed left-to-right scan: at each
  position the pattern is tried; on a match the replacement is emitted and
  scanning resumes in the *input* after the matched span (replacements are
  never rescanned), otherwise one character is copied.  The fuel
  `s.length` is always sufficient because every step consumes at least one
  input character; the fuel-0 branch returns the remaining input unchanged
  and is only ever reached on `[]`.
-/

namespace M3U

/-! ## Character classes (ASCII models of Python `\s`, `\d`, `[0-9A-Fa-f]`, `[^/\s:]`) -/

/-- Python `\s` restricted to ASCII: space, tab, newline, carriage return,
vertical tab, form feed. -/
def isPySpace (c : Char) : Bool :=
  c = ' ' || c = '\t' || c = '\n' || c = '\r' || c = '\x0b' || c = '\x0c'

/-- Python `\d` restricted to ASCII digits. -/
def isDigitCh (c : Char) : Bool :=
  c = '0' || c = '1' || c = '2' || c = '3' || c = '4' ||
  c = '5' || c = '6' || c = '7' || c = '8' || c = '9'

/-- The class `[0-9A-Fa-f]` from the module-level `HEX40` pattern. -/
def isHexCh (c : Char) : Bool :=
  c = '0' || c = '1' || c = '2' || c = '3' || c = '4' ||
  c = '5' || c = '6' || c = '7' || c = '8' || c = '9' ||
  c = 'a' || c = 'b' || c = 'c' || c = 'd' || c = 'e' || c = 'f' ||
  c = 'A' || c = 'B' || c = 'C' || c = 'D' || c = 'E' || c = 'F'

/-- The class `[^/\s:]` for the `host` group of `PAT_HOST_PORT_HASH`. -/
def isHostCh (c : Char) : Bool :=
  !(c = '/' || c = ':' || isPySpace c)

/-! ## List utilities -/

/-- `stripPrefixL pre s` returns `some r` with `s = pre ++ r` when `pre` is a
prefix of `s`, else `none`. -/
def stripPrefixL : List Char → List Char → Option (List Char)
  | [], s => some s
  | _ :: _, [] => none
  | p :: ps, c :: cs => if p = c then stripPrefixL ps cs else none

/-- Match exactly `n` characters satisfying `p`; return them and the rest. -/
def takeCount : Nat → (Char → Bool) → List Char → Option (List Char × List Char)
  | 0, _, s => some ([], s)
  | _ + 1, _, [] => none
  | n + 1, p, c :: cs =>
    if p c then
      match takeCount n p cs with
      | some (t, r) => some (c :: t, r)
      | none => none
    else none

/-- Boolean prefix test. -/
def isPrefixL : List Char → List Char → Bool
  | [], _ => true
  | _ :: _, [] => false
  | p :: ps, c :: cs => p = c && isPrefixL ps cs

/-- The suffix of `s` starting at the first occurrence of `pat`
(`some` iff `pat` occurs in `s`, i.e. Python `pat in s` / `s.find(pat)`). -/
def suffixFromInfix (pat : List Char) : List Char → Option (List Char)
  | [] => if pat = [] then some [] else none
  | c :: cs => if isPrefixL pat (c :: cs) then some (c :: cs) else suffixFromInfix pat cs

/-- Python substring containment `pat in s`. -/
def containsL (pat s : List Char) : Bool :=
  (suffixFromInfix pat s).isSome

/-- Number of positions of `s` at which `pat` occurs (overlaps counted). -/
def countInfix (pat : List Char) : List Char → Nat
  | [] => 0
  | c :: cs => (if isPrefixL pat (c :: cs) then 1 else 0) + countInfix pat cs

/-- Split at the first occurrence of `sep`: returns (before, after), with
`after = []` when `sep` does not occur. -/
def splitOnFirst (sep : Char) : List Char → List Char × List Char
  | [] => ([], [])
  | c :: cs =>
    if c = sep then ([], cs)
    else (c :: (splitOnFirst sep cs).1, (splitOnFirst sep cs).2)

/-! ## Decimal rendering of a Python `int` (f-string interpolation) -/

/-- One decimal digit. -/
def digitCh : Nat → Char
  | 0 => '0' | 1 => '1' | 2 => '2' | 3 => '3' | 4 => '4'
  | 5 => '5' | 6 => '6' | 7 => '7' | 8 => '8' | _ => '9'

/-- Fuel-driven most-significant-first digit accumulation; fuel `n + 1` is
always enough digits for `n`. -/
def natDigitsAux : Nat → Nat → List Char → List Char
  | 0, _, acc => acc
  | f + 1, n, acc =>
    if n < 10 then digitCh n :: acc
    else natDigitsAux f (n / 10) (digitCh (n % 10) :: acc)

/-- Decimal digits of a natural number. -/
def natToDigits (n : Nat) : List Char :=
  natDigitsAux (n + 1) n []

/-- Decimal rendering of an integer, as Python's `f"{port}"` produces. -/
def intToStr (i : Int) : List Char :=
  if i < 0 then '-' :: natToDigits i.natAbs else natToDigits i.toNat

/-! ## The rewrite engine: `replace_acestream_and_existing` -/

/-- The literal prefix of `PAT_ACESTREAM`. -/
def aceLit : List Char := "acestream://".data

/-- The literal of the optional `ace/getstream\?id=` group of
`PAT_HOST_PORT_HASH` (the `/` before it is matched separately). -/
def gsLit : List Char := "ace/getstream?id=".data

/-- The replacement template `f"http://{host}:{port}/ace/getstream?id={h}"`
used by both `repl_acestream` and `repl_hostport`. -/
def canonicalL (host : List Char) (port : Int) (h : List Char) : List Char :=
  "http://".data ++ host ++ ':' :: intToStr port ++ '/' :: gsLit ++ h

/-- Try `PAT_ACESTREAM` (`acestream://([0-9A-Fa-f]{40})`) anchored at the
start of `s`; on a match return (captured hash, rest after the match). -/
def tryAceAt (s : List Char) : Option (List Char × List Char) :=
  match stripPrefixL aceLit s with
  | none => none
  | some s1 => takeCount 40 isHexCh s1

/-- Try the scheme-less core of `PAT_HOST_PORT_HASH`
(`(?P<host>[^/\s:]+):(?P<port>\d{1,5})/(?:(?:ace/getstream\?id=)?(?P<h>HEX40))`)
anchored at the start of `s`; on a match return
(matched span, captured hash, rest).  The greedy/backtracking semantics are
deterministic: `host` is the maximal run of `[^/\s:]` and must be followed by
`:` (which no shorter host candidate can be); `port` is the maximal digit run,
which must have length 1–5 and be followed by `/` (shorter candidates are
followed by a digit); the optional literal is tried first, falling back to a
bare 40-hex match. -/
def matchCore (s : List Char) : Option (List Char × List Char × List Char) :=
  let hostPart := s.takeWhile isHostCh
  match s.dropWhile isHostCh with
  | ':' :: r1 =>
    if hostPart = [] then none
    else
      let ds := r1.takeWhile isDigitCh
      match r1.dropWhile isDigitCh with
      | '/' :: r3 =>
        if 1 ≤ ds.length && ds.length ≤ 5 then
          match stripPrefixL gsLit r3 with
          | some r4 =>
            match takeCount 40 isHexCh r4 with
            | some (hsh, r5) => some (hostPart ++ ':' :: ds ++ '/' :: gsLit ++ hsh, hsh, r5)
            | none =>
              match takeCount 40 isHexCh r3 with
              | some (hsh, r5) => some (hostPart ++ ':' :: ds ++ '/' :: hsh, hsh, r5)
              | none => none
          | none =>
            match takeCount 40 isHexCh r3 with
            | some (hsh, r5) => some (hostPart ++ ':' :: ds ++ '/' :: hsh, hsh, r5)
            | none => none
        else none
      | _ => none
  | _ => none

/-- Try the full `PAT_HOST_PORT_HASH` (with its optional `(?:https?://)?`)
anchored at the start of `s`.  The optional scheme is greedy: a present
scheme is tried first; if the continuation fails, the empty alternative is
tried from the same start position.  (`https://` and `http://` can never both
be prefixes of the same text.) -/
def tryHostPortAt (s : List Char) : Option (List Char × List Char × List Char) :=
  match stripPrefixL "https://".data s with
  | some r =>
    match matchCore r with
    | some (span, hsh, rest) => some ("https://".data ++ span, hsh, rest)
    | none => matchCore s
  | none =>
    match stripPrefixL "http://".data s with
    | some r =>
      match matchCore r with
      | some (span, hsh, rest) => some ("http://".data ++ span, hsh, rest)
      | none => matchCore s
    | none => matchCore s

/-- `PAT_ACESTREAM.sub(repl_acestream, ·)`: fuel-indexed leftmost
non-overlapping scan. -/
def subAceF (host : List Char) (port : Int) : Nat → List Char → List Char
  | 0, s => s
  | _ + 1, [] => []
  | fuel + 1, c :: cs =>
    match tryAceAt (c :: cs) with
    | some (hsh, rest) => canonicalL host port hsh ++ subAceF host port fuel rest
    | none => c :: subAceF host port fuel cs

/-- `PAT_HOST_PORT_HASH.sub(repl_hostport, ·)`: fuel-indexed leftmost
non-overlapping scan.  `repl_hostport` keeps the matched span unchanged when
the hash group is empty (dead branch: the hash is always 40 characters). -/
def subHostPortF (host : List Char) (port : Int) : Nat → List Char → List Char
  | 0, s => s
  | _ + 1, [] => []
  | fuel + 1, c :: cs =>
    match tryHostPortAt (c :: cs) with
    | some (span, hsh, rest) =>
      (if hsh = [] then span else canonicalL host port hsh) ++ subHostPortF host port fuel rest
    | none => c :: subHostPortF host port fuel cs

/-- `replace_acestream_and_existing(text, host, port)` from the source:
first substitute every `acestream://<hash>`, then every
`host:port/<hash>` / `host:port/ace/getstream?id=<hash>` occurrence. -/
def replace_acestream_and_existing (text host : String) (port : Int) : String :=
  let t1 := subAceF host.data port text.data.length text.data
  String.mk (subHostPortF host.data port t1.length t1)

/-- The canonical output string, at `String` level. -/
def canonicalStr (host : String) (port : Int) (h : String) : String :=
  String.mk (canonicalL host.data port h.data)

/-! ## `download_url`: retry loop with failure classification

The network is an oracle `att : Nat → AttemptResult` giving the outcome of
each attempt (`urllib.request.urlopen` plus `r.read().decode(...)`).
Backoff sleeping, the request headers and the charset handling have no
bearing on control flow and are not modelled; the oracle already yields
decoded text. -/

/-- Outcome of one `urlopen`/read attempt inside `download_url`. -/
inductive AttemptResult where
  /-- `urlopen` succeeded; the decoded body (possibly empty). -/
  | success (decodedBody : String)
  /-- `urllib.error.HTTPError` with status `code`; `body` is `.ok` the
  2048-byte error-body preview, or `.error msg` when `e.read` itself raised. -/
  | httpError (code : Nat) (reason : String) (body : Except String String)
  /-- `urllib.error.URLError` or `socket.timeout`. -/
  | urlError (msg : String)
  /-- Any other exception. -/
  | otherError (msg : String)

/-- Result of `download_url`: a returned body, or a raised `RuntimeError`,
each tagged with the number of attempts that were executed. -/
inductive DlOutcome where
  | ok (body : String) (attempts : Nat)
  | raised (msg : String) (attempts : Nat)
deriving DecidableEq

/-- The `last_error` text recorded for an `HTTPError`
(`f"HTTP {e.code} {e.reason}. Response: {body.decode(...)[:500]}"`, or the
read-failure variant). -/
def httpErrorText (code : Nat) (reason : String) (body : Except String String) : String :=
  match body with
  | .ok b => "HTTP " ++ toString code ++ " " ++ reason ++ ". Response: " ++ String.mk (b.data.take 500)
  | .error em => "HTTP " ++ toString code ++ " " ++ reason ++ " (Failed to read response: " ++ em ++ ")"

/-- The message of the final `RuntimeError`
(`f"Failed to download {url} after {max_retries} attempts. Last error: {last_error}"`;
Python renders an unset `last_error` as `None`). -/
def failMsg (url : String) (max_retries : Nat) (lastError : Option String) : String :=
  "Failed to download " ++ url ++ " after " ++ toString max_retries ++
    " attempts. Last error: " ++ (match lastError with | some m => m | none => "None")

/-- The `for attempt in range(max_retries)` loop of `download_url`:
`remaining` iterations are left, `i` attempts were already executed,
`le` is `last_error`.  A 4xx status other than 429 breaks (terminal); 429,
5xx, `URLError` and `socket.timeout` fall through to the next iteration;
any other exception breaks. -/
def download_url_loop (att : Nat → AttemptResult) (url : String) (max_retries : Nat) :
    Nat → Nat → Option String → DlOutcome
  | 0, i, le => .raised (failMsg url max_retries le) i
  | n + 1, i, _le =>
    match att i with
    | .success body => .ok body (i + 1)
    | .httpError code reason bp =>
      let le2 := some (httpErrorText code reason bp)
      if 400 ≤ code ∧ code < 500 ∧ code ≠ 429 then .raised (failMsg url max_retries le2) (i + 1)
      else download_url_loop att url max_retries n (i + 1) le2
    | .urlError m => download_url_loop att url max_retries n (i + 1) (some m)
    | .otherError m => .raised (failMsg url max_retries (some m)) (i + 1)

/-- `download_url(url, timeout, max_retries)` against the attempt oracle
`att`.  `timeout` only parameterises each attempt and does not influence the
control flow modelled here. -/
def download_url (att : Nat → AttemptResult) (url : String) (_timeout : Nat)
    (max_retries : Nat) : DlOutcome :=
  download_url_loop att url max_retries max_retries 0 none

/-- Attempts executed by a `DlOutcome`. -/
def DlOutcome.attemptCount : DlOutcome → Nat
  | .ok _ n => n
  | .raised _ n => n

/-- Whether an attempt outcome is one the loop retries after
(429, any non-4xx `HTTPError`, `URLError`, timeout). -/
def retriable : AttemptResult → Prop
  | .success _ => False
  | .httpError code _ _ => ¬(400 ≤ code ∧ code < 500 ∧ code ≠ 429)
  | .urlError _ => True
  | .otherError _ => False

/-! ## `try_download_with_gateways`: gateway candidate construction -/

/-- The module-level `ALTERNATIVE_GATEWAYS`, in source order. -/
def ALTERNATIVE_GATEWAYS : List String :=
  ["https://cloudflare-ipfs.com", "https://dweb.link", "https://gateway.pinata.cloud", "https://ipfs.io"]

/-- Result of `urllib.parse.urlparse`. -/
structure UrlParts where
  scheme : String
  netloc : String
  path : String
  query : String
  fragment : String
deriving DecidableEq

/-- Model of `urllib.parse.urlparse` restricted to absolute `http`/`https`
URLs and scheme-less references — the only shapes reaching
`try_download_with_gateways` here.  For an absolute URL the netloc runs to
the first `/`, `?` or `#`; the fragment is everything after the first `#`;
the query everything after the first `?` before the fragment. -/
def urlparse (u : String) : UrlParts :=
  let rest :=
    match stripPrefixL "https://".data u.data with
    | some r => some ("https", r)
    | none =>
      match stripPrefixL "http://".data u.data with
      | some r => some ("http", r)
      | none => none
  match rest with
  | some (sch, r) =>
    let netloc := r.takeWhile fun c => !(c = '/' || c = '?' || c = '#')
    let r2 := r.dropWhile fun c => !(c = '/' || c = '?' || c = '#')
    let (beforeFrag, frag) := splitOnFirst '#' r2
    let (path, query) := splitOnFirst '?' beforeFrag
    ⟨sch, String.mk netloc, String.mk path, String.mk query, String.mk frag⟩
  | none =>
    let (beforeFrag, frag) := splitOnFirst '#' u.data
    let (path, query) := splitOnFirst '?' beforeFrag
    ⟨"", "", String.mk path, String.mk query, String.mk frag⟩

/-- ASCII lowercasing of `str.lower()` (netlocs here are ASCII). -/
def lowerStr (s : String) : String :=
  String.mk (s.data.map Char.toLower)

/-- Python substring test `needle in hay` at `String` level. -/
def containsStr (hay needle : String) : Bool :=
  containsL needle.data hay.data

/-- `original_url[idx:]` for `idx = original_url.find("/ipfs/" | "/ipns/")`,
with the `path` fallback the source keeps for the (unreachable) `idx == -1`
case. -/
def ipfsPathOf (u : String) : String :=
  if containsStr u "/ipfs/" then
    match suffixFromInfix "/ipfs/".data u.data with
    | some t => String.mk t
    | none => (urlparse u).path
  else
    match suffixFromInfix "/ipns/".data u.data with
    | some t => String.mk t
    | none => (urlparse u).path

/-- `str.rstrip('/')`. -/
def rstripSlash (s : String) : String :=
  String.mk ((s.data.reverse.dropWhile fun c => c = '/').reverse)

/-- One candidate URL: `f"{gw.rstrip('/')}{ipfs_path}{query}{fragment}"`. -/
def candidateUrl (gw ipfsPath querySeg fragSeg : String) : String :=
  rstripSlash gw ++ ipfsPath ++ querySeg ++ fragSeg

/-- The alternative-gateway candidate URLs built by
`try_download_with_gateways(original_url)`, in the order they are tried:
the first loop runs for ipfs.io-hosted namespace URLs over all gateways;
the second loop runs for any namespace URL, skipping a gateway that is a
substring of `scheme://netloc`.  (The later original-URL / default-gateway
attempts build no *alternative-gateway* candidates and are not listed.) -/
def altGatewayCandidates (original_url : String) : List String :=
  let parsed := urlparse original_url
  let netloc := lowerStr parsed.netloc
  let querySeg := if parsed.query ≠ "" then "?" ++ parsed.query else ""
  let fragSeg := if parsed.fragment ≠ "" then "#" ++ parsed.fragment else ""
  let is_ipfs_path := containsStr original_url "/ipfs/" || containsStr original_url "/ipns/"
  let ipfs_path := if is_ipfs_path then ipfsPathOf original_url else ""
  let firstLoop :=
    if containsStr netloc "ipfs.io" && is_ipfs_path then
      ALTERNATIVE_GATEWAYS.map fun gw => candidateUrl gw ipfs_path querySeg fragSeg
    else []
  let secondLoop :=
    if is_ipfs_path then
      (ALTERNATIVE_GATEWAYS.filter fun gw =>
          !containsStr (parsed.scheme ++ "://" ++ parsed.netloc) gw).map
        fun gw => candidateUrl gw ipfs_path querySeg fragSeg
    else []
  firstLoop ++ secondLoop

/-! ## The combining expression of `main` -/

/-- `str.strip()` with the ASCII whitespace set. -/
def pyStrip (s : String) : String :=
  String.mk (((s.data.dropWhile isPySpace).reverse.dropWhile isPySpace).reverse)

/-- `sep.join(xs)`. -/
def pyJoin (sep : String) : List String → String
  | [] => ""
  | x :: xs => xs.foldl (fun acc y => acc ++ sep ++ y) x

/-- `"\n\n".join(part.strip() for part in combined_parts if part.strip())`
(main, line 546). -/
def combineParts (combined_parts : List String) : String :=
  pyJoin "\n\n" ((combined_parts.filter fun p => pyStrip p ≠ "").map pyStrip)

/-! ## `parse_arguments` and `main`

`main` is modelled to event granularity against a filesystem/network oracle
`World`.  The decisive feature is Python name resolution at line 465
(`args = p.parse_args()`): `p` is a local of `parse_arguments` (and of
`safe_name_from_url`), not of `main`, and no module-level or builtin binding
of `p` exists, so the statement raises `NameError` for every run that gets
there.  The code after line 465 is modelled faithfully at the level of its
control flow and I/O events (which sources are fetched/read, which files are
written); it is unreachable from `main`. -/

/-- The parsed CLI options, with `argparse` defaults. -/
structure CliArgs where
  url : List String
  input : List String
  out_dir : String
  combined_name : String
  backup : Bool
  host : String
  port : Int
  commit : Bool
  timeout : Nat
  max_retries : Nat
  verbose : Nat
  dry_run : Bool
deriving DecidableEq

/-- The `argparse` defaults of `parse_arguments`. -/
def defaultArgs : CliArgs :=
  { url := [], input := [], out_dir := ".", combined_name := "playlist.m3u",
    backup := true, host := "127.0.0.1", port := 6878, commit := true,
    timeout := 30, max_retries := 3, verbose := 0, dry_run := false }

/-- `parse_arguments()`: `p.error(...)` raises `SystemExit(2)` when neither
`--url` nor `--input` was given; otherwise the parsed arguments are
returned.  (`os.path.abspath` on `out_dir` is environment-dependent and
modelled as the identity.) -/
def parse_arguments (a : CliArgs) : Except Nat CliArgs :=
  if a.url = [] ∧ a.input = [] then .error 2 else .ok a

/-- Observable I/O events of a `main` run. -/
inductive Event where
  | mkdirOut (dir : String)
  | fetch (url : String)
  | readLocal (path : String)
  | backupOf (path : String)
  | writeOut (name : String)
  | combineStep
  | gitCommit
deriving DecidableEq

/-- How the process run ends. -/
inductive RunResult where
  /-- `sys.exit(code)` / `SystemExit(code)`. -/
  | exited (code : Nat)
  /-- An unhandled Python exception of the given class (process exit status 1). -/
  | pythonError (exc : String)
  /-- `main` returned normally (process exit status 0). -/
  | finished
deriving DecidableEq

/-- Filesystem/network oracle for the (unreachable) body of `main`. -/
structure World where
  /-- Outcome of `try_download_with_gateways(url, ...)`: `none` means it raised. -/
  fetchGateways : String → Option String
  /-- `Path(file_path).exists()`. -/
  fileExists : String → Bool
  /-- `fp.read_text(...)`: `none` means it raised. -/
  readFile : String → Option String
  /-- Whether the `git_commit_and_push` call returns without raising. -/
  gitOk : Bool

/-- Local names bound in `main`'s scope before line 465 executes
(`args` from line 453, `logger` from line 457, `out_dir` from line 463). -/
def mainLocalNames : List String := ["args", "logger", "out_dir"]

/-- Module-level names of `update_m3u_acestream.py` (imports, typing names,
constants and function definitions). -/
def moduleGlobalNames : List String :=
  ["argparse", "datetime", "logging", "os", "re", "shutil", "socket",
   "subprocess", "sys", "time", "urllib", "Path", "List", "Optional",
   "Tuple", "urlparse", "__version__", "HEX40", "PAT_ACESTREAM",
   "PAT_HOST_PORT_HASH", "ALTERNATIVE_GATEWAYS", "now_ts",
   "replace_acestream_and_existing", "download_url",
   "try_download_with_gateways", "backup_file", "is_git_tracked",
   "git_commit_and_push", "safe_name_from_url", "parse_arguments",
   "setup_logging", "main"]

/-- Python name resolution inside `main` at line 465: locals, then module
globals (no enclosing scope; no builtin named `p`). -/
def nameResolvesInMain (n : String) : Bool :=
  mainLocalNames.contains n || moduleGlobalNames.contains n

/-- Last `/`-separated component of a path string (`Path(p).name`). -/
def lastComponent (s : List Char) : List Char :=
  match splitOnFirst '/' s.reverse with
  | (revName, _) => revName.reverse

/-- `Path(name).stem`: the name without its last dot-suffix; a dot that is
the first or the last character does not start a suffix. -/
def pyStem (name : List Char) : List Char :=
  let r := name.reverse
  let suf := r.takeWhile fun c => c ≠ '.'
  match r.dropWhile fun c => c ≠ '.' with
  | [] => name
  | _ :: rest =>
    if rest = [] then name
    else if suf = [] then name
    else rest.reverse

/-- `safe_name_from_url(url, default)`. -/
def safe_name_from_url (url dflt : String) : String :=
  let name := lastComponent (urlparse url).path.data
  if name = [] then dflt else String.mk name

/-- Output filename for a downloaded source
(`f"{Path(base_name).stem}_converted.m3u"`). -/
def convertedNameForUrl (idx : Nat) (url : String) : String :=
  let base := safe_name_from_url url ("source_" ++ toString idx ++ ".m3u")
  String.mk (pyStem base.data) ++ "_converted.m3u"

/-- Output filename for a local source (`f"{fp.stem}_converted.m3u"`). -/
def convertedNameForFile (fp : String) : String :=
  String.mk (pyStem (lastComponent fp.data)) ++ "_converted.m3u"

/-- Accumulator of the two source-processing loops:
events so far, `combined_parts`, `generated_paths`. -/
structure LoopAcc where
  evs : List Event
  parts : List String
  gen : List String

/-- One iteration of the URL loop of `main` (lines 472–507). -/
def urlStep (w : World) (args : CliArgs) (acc : LoopAcc) (iu : Nat × String) : LoopAcc :=
  let (idx, url) := iu
  match w.fetchGateways url with
  | none => { acc with evs := acc.evs ++ [.fetch url] }
  | some text =>
    let newText := replace_acestream_and_existing text args.host args.port
    let outName := convertedNameForUrl idx url
    let writeEvs :=
      if args.dry_run then []
      else (if w.fileExists outName ∧ args.backup then [Event.backupOf outName] else []) ++
        [Event.writeOut outName]
    { evs := acc.evs ++ [.fetch url] ++ writeEvs,
      parts := acc.parts ++ [newText],
      gen := acc.gen ++ [outName] }

/-- One iteration of the local-file loop of `main` (lines 510–542). -/
def fileStep (w : World) (args : CliArgs) (acc : LoopAcc) (fp : String) : LoopAcc :=
  if w.fileExists fp then
    match w.readFile fp with
    | none => { acc with evs := acc.evs ++ [.readLocal fp] }
    | some text =>
      let newText := replace_acestream_and_existing text args.host args.port
      let outName := convertedNameForFile fp
      let writeEvs :=
        if args.dry_run then []
        else (if w.fileExists outName ∧ args.backup then [Event.backupOf outName] else []) ++
          [Event.writeOut outName]
      { evs := acc.evs ++ [.readLocal fp] ++ writeEvs,
        parts := acc.parts ++ [newText],
        gen := acc.gen ++ [outName] }
  else acc

/-- Lines 468–572 of `main`: the source loops, the combined playlist and the
git step.  This code is unreachable (see `main`); it is modelled so that the
unreachability statement is about the real control flow. -/
def mainRest (w : World) (args : CliArgs) (evs0 : List Event) : List Event × RunResult :=
  let acc1 := (args.url.enumFrom 1).foldl (urlStep w args) ⟨evs0, [], []⟩
  let acc2 := args.input.foldl (fileStep w args) acc1
  let (evs3, gen3) :=
    if acc2.parts ≠ [] then
      (acc2.evs ++ [.combineStep] ++
         (if args.dry_run then []
          else (if w.fileExists args.combined_name ∧ args.backup
                then [Event.backupOf args.combined_name] else []) ++
            [Event.writeOut args.combined_name]),
       acc2.gen ++ (if args.dry_run then [] else [args.combined_name]))
    else (acc2.evs, acc2.gen)
  if args.commit ∧ gen3 ≠ [] ∧ ¬args.dry_run then
    if w.gitOk then (evs3 ++ [.gitCommit], .finished)
    else (evs3, .exited 3)
  else (evs3, .finished)

/-- `main()`: parse/validate the CLI, configure logging, create the output
directory, then execute line 465 `args = p.parse_args()` — whose right-hand
side resolves the name `p`, raising `NameError` when unbound — before the
source-processing loops. -/
def main (w : World) (a : CliArgs) : List Event × RunResult :=
  match parse_arguments a with
  | .error code => ([], .exited code)
  | .ok args =>
    let evs := [Event.mkdirOut args.out_dir]
    if nameResolvesInMain "p" then mainRest w args evs
    else (evs, .pythonError "NameError")

/-! ## Auxiliary predicates used by the theorems -/

/-- The target host contains none of `/`, `:`, whitespace, and is nonempty —
the CLI shape under which the canonical replacement re-matches
`PAT_HOST_PORT_HASH` as a whole. -/
def hostOk (h : String) : Prop :=
  h.data ≠ [] ∧ h.data.all isHostCh = true

/-- The decimal rendering of the target port is 1–5 digits (true of every
TCP port number, in particular the default 6878). -/
def portOk (p : Int) : Prop :=
  (intToStr p).all isDigitCh = true ∧ 1 ≤ (intToStr p).length ∧ (intToStr p).length ≤ 5

/-- Hexadecimal 40-character identifier: the `HEX40` shape. -/
def hex40 (idStr : String) : Prop :=
  idStr.data.length = 40 ∧ idStr.data.all isHexCh = true

/-- No position of `s` matches `PAT_ACESTREAM` (so the first substitution
pass leaves `s` unchanged). -/
def aceFreeB : List Char → Bool
  | [] => true
  | c :: cs => (tryAceAt (c :: cs)).isNone && aceFreeB cs

/-! ## Basic lemmas about the list utilities -/

theorem stripPrefixL_append (pre r : List Char) : stripPrefixL pre (pre ++ r) = some r := by
  induction pre with
  | nil => rfl
  | cons p ps ih => simp [stripPrefixL, ih]

theorem stripPrefixL_sound : ∀ {pre s r : List Char}, stripPrefixL pre s = some r → s = pre ++ r
  | [], s, r, h => by
    simp only [stripPrefixL, Option.some.injEq] at h
    simpa using h
  | p :: ps, [], r, h => by simp [stripPrefixL] at h
  | p :: ps, c :: cs, r, h => by
    by_cases hpc : p = c
    · subst hpc
      simp only [stripPrefixL, if_pos rfl] at h
      simpa using stripPrefixL_sound h
    · simp [stripPrefixL, hpc] at h

theorem stripPrefixL_none_of_all {p : Char → Bool} {b : Char} {pre s : List Char}
    (hmem : b ∈ pre) (hall : s.all p = true) (hbad : p b = false) :
    stripPrefixL pre s = none := by
  cases hstrip : stripPrefixL pre s with
  | none => rfl
  | some r =>
    have hs : s = pre ++ r := stripPrefixL_sound hstrip
    have : p b = true := by
      have := List.all_eq_true.mp hall b (by simp [hs, hmem])
      exact this
    simp [this] at hbad

theorem takeCount_append {p : Char → Bool} :
    ∀ {a : List Char} {n : Nat} (b : List Char), a.length = n → a.all p = true →
      takeCount n p (a ++ b) = some (a, b)
  | [], n, b, hlen, _ => by subst hlen; rfl
  | c :: cs, n, b, hlen, hall => by
    subst hlen
    have hc : p c = true := by
      have := List.all_eq_true.mp hall c (by simp)
      exact this
    have hcs : cs.all p = true := by
      rw [List.all_eq_true] at hall ⊢
      intro x hx
      exact hall x (by simp [hx])
    simp [takeCount, hc, takeCount_append b rfl hcs]

theorem takeWhile_append_stop {p : Char → Bool} :
    ∀ {a : List Char} {b : List Char}, a.all p = true → (∀ c bs, b = c :: bs → p c = false) →
      (a ++ b).takeWhile p = a ∧ (a ++ b).dropWhile p = b
  | [], b, _, hb => by
    cases b with
    | nil => simp
    | cons c bs => simp [List.takeWhile, List.dropWhile, hb c bs rfl]
  | x :: xs, b, hall, hb => by
    have hx : p x = true := by
      have := List.all_eq_true.mp hall x (by simp)
      exact this
    have hxs : xs.all p = true := by
      rw [List.all_eq_true] at hall ⊢
      intro y hy
      exact hall y (by simp [hy])
    have ih := takeWhile_append_stop (a := xs) (b := b) hxs hb
    simp [List.takeWhile, List.dropWhile, hx, ih.1, ih.2]

theorem all_of_append_left {p : Char → Bool} {a b : List Char}
    (h : (a ++ b).all p = true) : a.all p = true := by
  rw [List.all_eq_true] at h ⊢
  intro x hx
  exact h x (by simp [hx])

theorem all_of_append_right {p : Char → Bool} {a b : List Char}
    (h : (a ++ b).all p = true) : b.all p = true := by
  rw [List.all_eq_true] at h ⊢
  intro x hx
  exact h x (by simp [hx])

theorem hex_imp_host {c : Char} (h : isHexCh c = true) : isHostCh c = true := by
  simp only [isHexCh, Bool.or_eq_true, decide_eq_true_eq] at h
  iterate 21 (rcases h with h | rfl <;> try rfl)
  subst h
  rfl

theorem all_hex_imp_all_host {s : List Char} (h : s.all isHexCh = true) :
    s.all isHostCh = true := by
  rw [List.all_eq_true] at h ⊢
  intro x hx
  exact hex_imp_host (h x hx)

/-! ## Anchored-matcher lemmas -/

theorem tryAceAt_match {idL t : List Char} (hlen : idL.length = 40)
    (hhex : idL.all isHexCh = true) :
    tryAceAt (aceLit ++ (idL ++ t)) = some (idL, t) := by
  simp [tryAceAt, stripPrefixL_append, takeCount_append t hlen hhex]

theorem tryAceAt_none_of_hex {s : List Char} (h : s.all isHexCh = true) :
    tryAceAt s = none := by
  have : stripPrefixL aceLit s = none :=
    stripPrefixL_none_of_all (b := ':') (by simp [aceLit]) h (by rfl)
  simp [tryAceAt, this]

theorem matchCore_shape_lit {h d i t : List Char}
    (hhost : h ≠ []) (hhostc : h.all isHostCh = true)
    (hds : d.all isDigitCh = true) (hds1 : 1 ≤ d.length) (hds5 : d.length ≤ 5)
    (hlen : i.length = 40) (hhex : i.all isHexCh = true) :
    matchCore (h ++ ':' :: (d ++ '/' :: (gsLit ++ (i ++ t)))) =
      some (h ++ ':' :: d ++ '/' :: gsLit ++ i, i, t) := by
  have h1 := takeWhile_append_stop (a := h) (b := ':' :: (d ++ '/' :: (gsLit ++ (i ++ t))))
    hhostc (by intro c bs hb; cases hb; rfl)
  have h2 := takeWhile_append_stop (a := d) (b := '/' :: (gsLit ++ (i ++ t)))
    hds (by intro c bs hb; cases hb; rfl)
  simp only [matchCore, h1.1, h1.2, h2.1, h2.2]
  simp [hhost, hds1, hds5, stripPrefixL_append, takeCount_append t hlen hhex]

theorem matchCore_shape_bare {h d i t : List Char}
    (hhost : h ≠ []) (hhostc : h.all isHostCh = true)
    (hds : d.all isDigitCh = true) (hds1 : 1 ≤ d.length) (hds5 : d.length ≤ 5)
    (hlen : i.length = 40) (hhex : i.all isHexCh = true)
    (ht : t.all isHexCh = true) :
    matchCore (h ++ ':' :: (d ++ '/' :: (i ++ t))) =
      some (h ++ ':' :: d ++ '/' :: i, i, t) := by
  have h1 := takeWhile_append_stop (a := h) (b := ':' :: (d ++ '/' :: (i ++ t)))
    hhostc (by intro c bs hb; cases hb; rfl)
  have h2 := takeWhile_append_stop (a := d) (b := '/' :: (i ++ t))
    hds (by intro c bs hb; cases hb; rfl)
  have hidt : (i ++ t).all isHexCh = true := by
    rw [List.all_eq_true] at hhex ht ⊢
    intro x hx
    rcases List.mem_append.mp hx with hx | hx
    · exact hhex x hx
    · exact ht x hx
  have hstrip : stripPrefixL gsLit (i ++ t) = none :=
    stripPrefixL_none_of_all (b := '/') (by simp [gsLit]) hidt (by rfl)
  simp only [matchCore, h1.1, h1.2, h2.1, h2.2]
  simp [hhost, hds1, hds5, hstrip, takeCount_append t hlen hhex]

/-! ## Scan-step lemmas for the two substitution passes -/

theorem subAceF_nil (host : List Char) (port : Int) (f : Nat) :
    subAceF host port f [] = [] := by
  cases f <;> rfl

theorem subHostPortF_nil (host : List Char) (port : Int) (f : Nat) :
    subHostPortF host port f [] = [] := by
  cases f <;> rfl

theorem subAceF_step {host : List Char} {port : Int} {f : Nat} {c : Char} {cs : List Char}
    (h : tryAceAt (c :: cs) = none) :
    subAceF host port (f + 1) (c :: cs) = c :: subAceF host port f cs := by
  simp [subAceF, h]

theorem subAceF_match {host : List Char} {port : Int} {f : Nat} {s hsh rest : List Char}
    (h : tryAceAt s = some (hsh, rest)) :
    subAceF host port (f + 1) s = canonicalL host port hsh ++ subAceF host port f rest := by
  cases s with
  | nil => simp [show tryAceAt ([] : List Char) = none from rfl] at h
  | cons c cs => simp [subAceF, h]

theorem subHostPortF_step {host : List Char} {port : Int} {f : Nat} {c : Char} {cs : List Char}
    (h : tryHostPortAt (c :: cs) = none) :
    subHostPortF host port (f + 1) (c :: cs) = c :: subHostPortF host port f cs := by
  simp [subHostPortF, h]

theorem subHostPortF_match {host : List Char} {port : Int} {f : Nat} {s span hsh rest : List Char}
    (h : tryHostPortAt s = some (span, hsh, rest)) :
    subHostPortF host port (f + 1) s =
      (if hsh = [] then span else canonicalL host port hsh) ++ subHostPortF host port f rest := by
  cases s with
  | nil => simp [show tryHostPortAt ([] : List Char) = none from rfl] at h
  | cons c cs => simp [subHostPortF, h]

theorem aceFreeB_cons {c : Char} {cs : List Char}
    (h1 : tryAceAt (c :: cs) = none) (h2 : aceFreeB cs = true) :
    aceFreeB (c :: cs) = true := by
  simp [aceFreeB, h1, h2]

theorem aceFreeB_of_hex : ∀ {s : List Char}, s.all isHexCh = true → aceFreeB s = true
  | [], _ => rfl
  | c :: cs, h => by
    have htail : cs.all isHexCh = true := by
      rw [List.all_eq_true] at h ⊢
      intro x hx
      exact h x (by simp [hx])
    exact aceFreeB_cons (tryAceAt_none_of_hex h) (aceFreeB_of_hex htail)

theorem subAceF_id (host : List Char) (port : Int) :
    ∀ (f : Nat) (s : List Char), aceFreeB s = true → subAceF host port f s = s := by
  intro f
  induction f with
  | zero => intro s _; rfl
  | succ g ih =>
    intro s hs
    cases s with
    | nil => rfl
    | cons c cs =>
      simp only [aceFreeB, Bool.and_eq_true, Option.isNone_iff_eq_none] at hs
      simp [subAceF, hs.1, ih cs hs.2]

/-! ## The canonical form re-matches `PAT_HOST_PORT_HASH` and rewrites to itself -/

theorem stripPrefix_https_of_http (x : List Char) :
    stripPrefixL "https://".data ("http://".data ++ x) = none := rfl

theorem tryHostPortAt_canonical {h d i : List Char}
    (hh : h ≠ []) (hhc : h.all isHostCh = true)
    (hd : d.all isDigitCh = true) (hd1 : 1 ≤ d.length) (hd5 : d.length ≤ 5)
    (hlen : i.length = 40) (hhex : i.all isHexCh = true) :
    tryHostPortAt ("http://".data ++ h ++ ':' :: d ++ '/' :: gsLit ++ i) =
      some ("http://".data ++ (h ++ ':' :: d ++ '/' :: gsLit ++ i), i, []) := by
  have hcore := matchCore_shape_lit (h := h) (d := d) (i := i) (t := [])
    hh hhc hd hd1 hd5 hlen hhex
  rw [List.append_nil] at hcore
  unfold tryHostPortAt
  rw [show ("http://".data ++ h ++ ':' :: d ++ '/' :: gsLit ++ i) =
        "http://".data ++ (h ++ ':' :: (d ++ '/' :: (gsLit ++ i))) by simp]
  rw [stripPrefix_https_of_http, stripPrefixL_append]
  simp [hcore]

theorem subHostPortF_canonical_fix {hostL : List Char} {port : Int} {idL : List Char} {f : Nat}
    (hh : hostL ≠ []) (hhc : hostL.all isHostCh = true)
    (hd : (intToStr port).all isDigitCh = true)
    (hd1 : 1 ≤ (intToStr port).length) (hd5 : (intToStr port).length ≤ 5)
    (hlen : idL.length = 40) (hhex : idL.all isHexCh = true) :
    subHostPortF hostL port (f + 1) (canonicalL hostL port idL) = canonicalL hostL port idL := by
  have hm := tryHostPortAt_canonical (h := hostL) (d := intToStr port) (i := idL)
    hh hhc hd hd1 hd5 hlen hhex
  have hid : idL ≠ [] := by
    intro hnil
    rw [hnil] at hlen
    simp at hlen
  have hcanon : canonicalL hostL port idL =
      "http://".data ++ hostL ++ ':' :: intToStr port ++ '/' :: gsLit ++ idL := rfl
  rw [hcanon, subHostPortF_match hm, subHostPortF_nil]
  simp [hid, canonicalL]

/-! ## End-to-end evaluation of `replace_acestream_and_existing` -/

/-- When the first pass changes nothing and the second pass matches the whole
text in one span, the rewrite yields the canonical string of the captured
identifier. -/
theorem rewrite_of_single_hostport_match {s : String} {p : Int} {L span idL : List Char}
    (hace : aceFreeB L = true)
    (hmatch : tryHostPortAt L = some (span, idL, []))
    (hid : idL ≠ []) :
    replace_acestream_and_existing (String.mk L) s p = canonicalStr s p (String.mk idL) := by
  have hpos : 0 < L.length := by
    cases L with
    | nil => simp [show tryHostPortAt ([] : List Char) = none from rfl] at hmatch
    | cons c cs => simp
  unfold replace_acestream_and_existing
  show String.mk (subHostPortF s.data p _ (subAceF s.data p L.length L)) = _
  rw [subAceF_id s.data p L.length L hace]
  obtain ⟨g, hg⟩ : ∃ g, L.length = g + 1 := ⟨L.length - 1, by omega⟩
  rw [hg, subHostPortF_match hmatch, subHostPortF_nil]
  simp [hid, canonicalStr]

/-- Rewriting the pure `acestream://<ID>` surface form: the first pass
produces the canonical string; the second pass matches it as a whole and
rewrites it to itself. -/
theorem rewrite_ace_form {hS : String} {p : Int} {idS : String}
    (hH : hostOk hS) (hP : portOk p) (hid : hex40 idS) :
    replace_acestream_and_existing ("acestream://" ++ idS) hS p = canonicalStr hS p idS := by
  obtain ⟨hlen, hhex⟩ := hid
  obtain ⟨hne, hhc⟩ := hH
  obtain ⟨hd, hd1, hd5⟩ := hP
  have hdata : ("acestream://" ++ idS).data = aceLit ++ idS.data := by
    rw [String.data_append]
    rfl
  have hm : tryAceAt (("acestream://" ++ idS).data) = some (idS.data, []) := by
    rw [hdata, show aceLit ++ idS.data = aceLit ++ (idS.data ++ []) by simp]
    exact tryAceAt_match hlen hhex
  have hlenL : ("acestream://" ++ idS).data.length = 51 + 1 := by
    rw [hdata, List.length_append, hlen]
    rfl
  unfold replace_acestream_and_existing
  rw [hlenL, subAceF_match hm, subAceF_nil, List.append_nil]
  have hcpos : 0 < (canonicalL hS.data p idS.data).length := by
    simp [canonicalL]
  obtain ⟨g, hg⟩ : ∃ g, (canonicalL hS.data p idS.data).length = g + 1 :=
    ⟨(canonicalL hS.data p idS.data).length - 1, by omega⟩
  show String.mk (subHostPortF hS.data p (canonicalL hS.data p idS.data).length
    (canonicalL hS.data p idS.data)) = canonicalStr hS p idS
  rw [hg, subHostPortF_canonical_fix hne hhc hd hd1 hd5 hlen hhex]
  rfl

/-! ## String-level plumbing -/

theorem str_append_mk (a b : String) : a ++ b = String.mk (a.data ++ b.data) := by
  cases a
  cases b
  rfl

theorem str_mk_data (s : String) : String.mk s.data = s := by
  cases s
  rfl

theorem str_ne_of_data_ne {a b : String} (h : a.data ≠ b.data) : a ≠ b := by
  intro he
  exact h (by rw [he])

/-! ## An all-hex string matches neither pattern -/

theorem dropWhile_eq_nil_of_all {p : Char → Bool} {s : List Char}
    (h : s.all p = true) : s.dropWhile p = [] := by
  induction s with
  | nil => rfl
  | cons c cs ih =>
    have hc : p c = true := by
      have := List.all_eq_true.mp h c (by simp)
      exact this
    have hcs : cs.all p = true := by
      rw [List.all_eq_true] at h ⊢
      intro x hx
      exact h x (by simp [hx])
    simp [List.dropWhile, hc, ih hcs]

theorem tryHostPortAt_none_of_hex {s : List Char} (h : s.all isHexCh = true) :
    tryHostPortAt s = none := by
  have h1 : stripPrefixL "https://".data s = none :=
    stripPrefixL_none_of_all (b := ':') (by simp) h (by rfl)
  have h2 : stripPrefixL "http://".data s = none :=
    stripPrefixL_none_of_all (b := ':') (by simp) h (by rfl)
  have h3 : matchCore s = none := by
    have hdrop : s.dropWhile isHostCh = [] :=
      dropWhile_eq_nil_of_all (all_hex_imp_all_host h)
    simp [matchCore, hdrop]
  simp [tryHostPortAt, h1, h2, h3]

/-- A one-character hex remainder passes through the second substitution
pass untouched. -/
theorem subHostPortF_single_hex {host : List Char} {port : Int} {f : Nat} {c : Char}
    (hc : isHexCh c = true) :
    subHostPortF host port (f + 1) [c] = [c] := by
  rw [subHostPortF_step (tryHostPortAt_none_of_hex (by simp [hc])), subHostPortF_nil]

/-! ## The canonical form with a trailing hex remainder -/

theorem tryHostPortAt_canonical_tail {h d i t : List Char}
    (hh : h ≠ []) (hhc : h.all isHostCh = true)
    (hd : d.all isDigitCh = true) (hd1 : 1 ≤ d.length) (hd5 : d.length ≤ 5)
    (hlen : i.length = 40) (hhex : i.all isHexCh = true) :
    tryHostPortAt ("http://".data ++ h ++ ':' :: d ++ '/' :: gsLit ++ (i ++ t)) =
      some ("http://".data ++ (h ++ ':' :: d ++ '/' :: gsLit ++ i), i, t) := by
  have hcore := matchCore_shape_lit (h := h) (d := d) (i := i) (t := t)
    hh hhc hd hd1 hd5 hlen hhex
  unfold tryHostPortAt
  rw [show ("http://".data ++ h ++ ':' :: d ++ '/' :: gsLit ++ (i ++ t)) =
        "http://".data ++ (h ++ ':' :: (d ++ '/' :: (gsLit ++ (i ++ t)))) by simp]
  rw [stripPrefix_https_of_http, stripPrefixL_append]
  simp [hcore]

/-! ## The source-side `host:port` surface forms (host `example.com`, port `8080`) -/

theorem tryHostPortAt_bare_example {idL : List Char}
    (hlen : idL.length = 40) (hhex : idL.all isHexCh = true) :
    tryHostPortAt ("example.com:8080/".data ++ idL) =
      some ("example.com".data ++ ':' :: "8080".data ++ '/' :: idL, idL, []) := by
  have hcore := matchCore_shape_bare (h := "example.com".data) (d := "8080".data)
    (i := idL) (t := []) (by decide) (by decide) (by decide) (by decide) (by decide)
    hlen hhex (by rfl)
  rw [List.append_nil] at hcore
  simp only [tryHostPortAt,
    show stripPrefixL "https://".data ("example.com:8080/".data ++ idL) = none from rfl,
    show stripPrefixL "http://".data ("example.com:8080/".data ++ idL) = none from rfl]
  rw [show "example.com:8080/".data ++ idL =
        "example.com".data ++ ':' :: ("8080".data ++ '/' :: idL) from rfl]
  exact hcore

theorem tryHostPortAt_lit_example {idL : List Char}
    (hlen : idL.length = 40) (hhex : idL.all isHexCh = true) :
    tryHostPortAt ("example.com:8080/ace/getstream?id=".data ++ idL) =
      some ("example.com".data ++ ':' :: "8080".data ++ '/' :: gsLit ++ idL, idL, []) := by
  have hcore := matchCore_shape_lit (h := "example.com".data) (d := "8080".data)
    (i := idL) (t := []) (by decide) (by decide) (by decide) (by decide) (by decide)
    hlen hhex
  rw [List.append_nil] at hcore
  simp only [tryHostPortAt,
    show stripPrefixL "https://".data ("example.com:8080/ace/getstream?id=".data ++ idL) = none
      from rfl,
    show stripPrefixL "http://".data ("example.com:8080/ace/getstream?id=".data ++ idL) = none
      from rfl]
  rw [show "example.com:8080/ace/getstream?id=".data ++ idL =
        "example.com".data ++ ':' :: ("8080".data ++ '/' :: (gsLit ++ idL)) from rfl]
  exact hcore

theorem tryHostPortAt_http_example {idL : List Char}
    (hlen : idL.length = 40) (hhex : idL.all isHexCh = true) :
    tryHostPortAt ("http://example.com:8080/".data ++ idL) =
      some ("http://".data ++ ("example.com".data ++ ':' :: "8080".data ++ '/' :: idL),
        idL, []) := by
  have hcore := matchCore_shape_bare (h := "example.com".data) (d := "8080".data)
    (i := idL) (t := []) (by decide) (by decide) (by decide) (by decide) (by decide)
    hlen hhex (by rfl)
  rw [List.append_nil] at hcore
  have hcore2 : matchCore ("example.com:8080/".data ++ idL) =
      some ("example.com".data ++ ':' :: "8080".data ++ '/' :: idL, idL, []) := hcore
  show (match matchCore ("example.com:8080/".data ++ idL) with
    | some (span, hsh, rest) => some ("http://".data ++ span, hsh, rest)
    | none => matchCore ("http://example.com:8080/".data ++ idL)) =
    some ("http://".data ++ ("example.com".data ++ ':' :: "8080".data ++ '/' :: idL), idL, [])
  rw [hcore2]

theorem tryHostPortAt_https_example {idL : List Char}
    (hlen : idL.length = 40) (hhex : idL.all isHexCh = true) :
    tryHostPortAt ("https://example.com:8080/".data ++ idL) =
      some ("https://".data ++ ("example.com".data ++ ':' :: "8080".data ++ '/' :: idL),
        idL, []) := by
  have hcore := matchCore_shape_bare (h := "example.com".data) (d := "8080".data)
    (i := idL) (t := []) (by decide) (by decide) (by decide) (by decide) (by decide)
    hlen hhex (by rfl)
  rw [List.append_nil] at hcore
  have hcore2 : matchCore ("example.com:8080/".data ++ idL) =
      some ("example.com".data ++ ':' :: "8080".data ++ '/' :: idL, idL, []) := hcore
  show (match matchCore ("example.com:8080/".data ++ idL) with
    | some (span, hsh, rest) => some ("https://".data ++ span, hsh, rest)
    | none => matchCore ("https://example.com:8080/".data ++ idL)) =
    some ("https://".data ++ ("example.com".data ++ ':' :: "8080".data ++ '/' :: idL), idL, [])
  rw [hcore2]

theorem tryHostPortAt_http_lit_example {idL : List Char}
    (hlen : idL.length = 40) (hhex : idL.all isHexCh = true) :
    tryHostPortAt ("http://example.com:8080/ace/getstream?id=".data ++ idL) =
      some ("http://".data ++
        ("example.com".data ++ ':' :: "8080".data ++ '/' :: gsLit ++ idL), idL, []) := by
  have hcore := matchCore_shape_lit (h := "example.com".data) (d := "8080".data)
    (i := idL) (t := []) (by decide) (by decide) (by decide) (by decide) (by decide)
    hlen hhex
  rw [List.append_nil] at hcore
  have hcore2 : matchCore ("example.com:8080/ace/getstream?id=".data ++ idL) =
      some ("example.com".data ++ ':' :: "8080".data ++ '/' :: gsLit ++ idL, idL, []) := hcore
  show (match matchCore ("example.com:8080/ace/getstream?id=".data ++ idL) with
    | some (span, hsh, rest) => some ("http://".data ++ span, hsh, rest)
    | none => matchCore ("http://example.com:8080/ace/getstream?id=".data ++ idL)) =
    some ("http://".data ++
      ("example.com".data ++ ':' :: "8080".data ++ '/' :: gsLit ++ idL), idL, [])
  rw [hcore2]

/-! ## `PAT_ACESTREAM` matches nowhere in the surface forms and in the canonical form -/

theorem aceFreeB_bare_example {idL : List Char} (hhex : idL.all isHexCh = true) :
    aceFreeB ("example.com:8080/".data ++ idL) = true := by
  repeat (refine aceFreeB_cons rfl ?_)
  exact aceFreeB_of_hex hhex

theorem aceFreeB_http_example {idL : List Char} (hhex : idL.all isHexCh = true) :
    aceFreeB ("http://example.com:8080/".data ++ idL) = true := by
  repeat (refine aceFreeB_cons rfl ?_)
  exact aceFreeB_of_hex hhex

theorem aceFreeB_https_example {idL : List Char} (hhex : idL.all isHexCh = true) :
    aceFreeB ("https://example.com:8080/".data ++ idL) = true := by
  repeat (refine aceFreeB_cons rfl ?_)
  exact aceFreeB_of_hex hhex

theorem aceFreeB_lit_example {idL : List Char} (hhex : idL.all isHexCh = true) :
    aceFreeB ("example.com:8080/ace/getstream?id=".data ++ idL) = true := by
  repeat (refine aceFreeB_cons rfl ?_)
  exact aceFreeB_of_hex hhex

theorem aceFreeB_http_lit_example {idL : List Char} (hhex : idL.all isHexCh = true) :
    aceFreeB ("http://example.com:8080/ace/getstream?id=".data ++ idL) = true := by
  repeat (refine aceFreeB_cons rfl ?_)
  exact aceFreeB_of_hex hhex

theorem aceFreeB_canonical_default {idL : List Char} (hhex : idL.all isHexCh = true) :
    aceFreeB (canonicalL "127.0.0.1".data 6878 idL) = true := by
  repeat (refine aceFreeB_cons rfl ?_)
  exact aceFreeB_of_hex hhex

/-! ## End-to-end rewrites of each surface form -/

theorem hex40_ne_nil {idS : String} (hid : hex40 idS) : idS.data ≠ [] := by
  intro h
  have := hid.1
  rw [h] at this
  simp at this

theorem rewrite_bare_form {hS : String} {p : Int} {idS : String} (hid : hex40 idS) :
    replace_acestream_and_existing ("example.com:8080/" ++ idS) hS p =
      canonicalStr hS p idS := by
  obtain ⟨hlen, hhex⟩ := hid
  rw [str_append_mk]
  rw [rewrite_of_single_hostport_match (aceFreeB_bare_example hhex)
    (tryHostPortAt_bare_example hlen hhex) (hex40_ne_nil ⟨hlen, hhex⟩)]

theorem rewrite_http_form {hS : String} {p : Int} {idS : String} (hid : hex40 idS) :
    replace_acestream_and_existing ("http://example.com:8080/" ++ idS) hS p =
      canonicalStr hS p idS := by
  obtain ⟨hlen, hhex⟩ := hid
  rw [str_append_mk]
  rw [rewrite_of_single_hostport_match (aceFreeB_http_example hhex)
    (tryHostPortAt_http_example hlen hhex) (hex40_ne_nil ⟨hlen, hhex⟩)]

theorem rewrite_https_form {hS : String} {p : Int} {idS : String} (hid : hex40 idS) :
    replace_acestream_and_existing ("https://example.com:8080/" ++ idS) hS p =
      canonicalStr hS p idS := by
  obtain ⟨hlen, hhex⟩ := hid
  rw [str_append_mk]
  rw [rewrite_of_single_hostport_match (aceFreeB_https_example hhex)
    (tryHostPortAt_https_example hlen hhex) (hex40_ne_nil ⟨hlen, hhex⟩)]

theorem rewrite_lit_form {hS : String} {p : Int} {idS : String} (hid : hex40 idS) :
    replace_acestream_and_existing ("example.com:8080/ace/getstream?id=" ++ idS) hS p =
      canonicalStr hS p idS := by
  obtain ⟨hlen, hhex⟩ := hid
  rw [str_append_mk]
  rw [rewrite_of_single_hostport_match (aceFreeB_lit_example hhex)
    (tryHostPortAt_lit_example hlen hhex) (hex40_ne_nil ⟨hlen, hhex⟩)]

theorem rewrite_http_lit_form {hS : String} {p : Int} {idS : String} (hid : hex40 idS) :
    replace_acestream_and_existing ("http://example.com:8080/ace/getstream?id=" ++ idS) hS p =
      canonicalStr hS p idS := by
  obtain ⟨hlen, hhex⟩ := hid
  rw [str_append_mk]
  rw [rewrite_of_single_hostport_match (aceFreeB_http_lit_example hhex)
    (tryHostPortAt_http_lit_example hlen hhex) (hex40_ne_nil ⟨hlen, hhex⟩)]

/-- The canonical output of a rewrite with the default host and port is a
fixpoint of the rewrite. -/
theorem rewrite_canonical_fixpoint {idS : String} (hid : hex40 idS) :
    replace_acestream_and_existing (canonicalStr "127.0.0.1" 6878 idS) "127.0.0.1" 6878 =
      canonicalStr "127.0.0.1" 6878 idS := by
  obtain ⟨hlen, hhex⟩ := hid
  have hmatch : tryHostPortAt (canonicalL "127.0.0.1".data 6878 idS.data) =
      some ("http://".data ++
        ("127.0.0.1".data ++ ':' :: intToStr 6878 ++ '/' :: gsLit ++ idS.data),
        idS.data, []) :=
    tryHostPortAt_canonical (h := "127.0.0.1".data) (d := intToStr 6878)
      (by decide) (by decide) (by decide) (by decide) (by decide) hlen hhex
  have hrw := rewrite_of_single_hostport_match (s := "127.0.0.1") (p := 6878)
    (aceFreeB_canonical_default hhex) hmatch (hex40_ne_nil ⟨hlen, hhex⟩)
  exact hrw

/-- The canonical string spelled as the concatenation
`"http://" ++ host ++ ":" ++ port ++ "/ace/getstream?id=" ++ id`. -/
theorem canonicalStr_spell (hS : String) (p : Int) (idS : String) :
    canonicalStr hS p idS =
      "http://" ++ hS ++ ":" ++ String.mk (intToStr p) ++ "/ace/getstream?id=" ++ idS := by
  have hdata :
      ("http://" ++ hS ++ ":" ++ String.mk (intToStr p) ++ "/ace/getstream?id=" ++ idS).data =
        canonicalL hS.data p idS.data := by
    simp [String.data_append, canonicalL, gsLit]
  rw [← str_mk_data ("http://" ++ hS ++ ":" ++ String.mk (intToStr p) ++
    "/ace/getstream?id=" ++ idS), hdata]
  rfl

/-! ## Loop lemmas for `download_url` -/

theorem download_loop_zero {att : Nat → AttemptResult} {url : String} {mr i : Nat}
    {le : Option String} :
    download_url_loop att url mr 0 i le = .raised (failMsg url mr le) i := rfl

theorem download_loop_success {att : Nat → AttemptResult} {url : String} {mr n i : Nat}
    {le : Option String} {body : String} (h : att i = .success body) :
    download_url_loop att url mr (n + 1) i le = .ok body (i + 1) := by
  simp only [download_url_loop, h]

theorem download_loop_http_terminal {att : Nat → AttemptResult} {url : String}
    {mr n i : Nat} {le : Option String} {code : Nat} {reason : String}
    {bp : Except String String} (h : att i = .httpError code reason bp)
    (hc : 400 ≤ code ∧ code < 500 ∧ code ≠ 429) :
    download_url_loop att url mr (n + 1) i le =
      .raised (failMsg url mr (some (httpErrorText code reason bp))) (i + 1) := by
  simp only [download_url_loop, h]
  rw [if_pos hc]

theorem download_loop_http_retry {att : Nat → AttemptResult} {url : String}
    {mr n i : Nat} {le : Option String} {code : Nat} {reason : String}
    {bp : Except String String} (h : att i = .httpError code reason bp)
    (hc : ¬(400 ≤ code ∧ code < 500 ∧ code ≠ 429)) :
    download_url_loop att url mr (n + 1) i le =
      download_url_loop att url mr n (i + 1) (some (httpErrorText code reason bp)) := by
  simp only [download_url_loop, h]
  rw [if_neg hc]

theorem download_loop_url_retry {att : Nat → AttemptResult} {url : String}
    {mr n i : Nat} {le : Option String} {m : String} (h : att i = .urlError m) :
    download_url_loop att url mr (n + 1) i le =
      download_url_loop att url mr n (i + 1) (some m) := by
  simp only [download_url_loop, h]

theorem download_loop_other_step {att : Nat → AttemptResult} {url : String}
    {mr n i : Nat} {le : Option String} {m : String} (h : att i = .otherError m) :
    download_url_loop att url mr (n + 1) i le =
      .raised (failMsg url mr (some m)) (i + 1) := by
  simp only [download_url_loop, h]

/-- A run whose every attempt yields HTTP 503 exhausts the whole loop:
`n + 1` remaining iterations execute `n + 1` further attempts and raise. -/
theorem download_loop_all503 (att : Nat → AttemptResult) (url : String) (mr : Nat)
    (r : String) (b : Except String String) (h503 : ∀ j, att j = .httpError 503 r b) :
    ∀ (n i : Nat) (le : Option String), download_url_loop att url mr (n + 1) i le =
      .raised (failMsg url mr (some (httpErrorText 503 r b))) (i + (n + 1)) := by
  intro n
  induction n with
  | zero =>
    intro i le
    rw [download_loop_http_retry (h503 i) (by omega), download_loop_zero]
  | succ m ih =>
    intro i le
    rw [download_loop_http_retry (h503 i) (by omega), ih (i + 1)]
    congr 1
    omega

/-- A retriable prefix of attempts followed by a non-HTTP, non-URLError
exception at attempt `k` ends the loop after `k + 1` attempts. -/
theorem download_loop_other (att : Nat → AttemptResult) (url : String) (mr : Nat)
    (m : String) :
    ∀ (k n i : Nat) (le : Option String), (∀ j, j < k → retriable (att (i + j))) →
      att (i + k) = .otherError m → k < n →
      download_url_loop att url mr n i le = .raised (failMsg url mr (some m)) (i + k + 1) := by
  intro k
  induction k with
  | zero =>
    intro n i le _ hk hn
    obtain ⟨n2, rfl⟩ : ∃ n2, n = n2 + 1 := ⟨n - 1, by omega⟩
    have hk2 : att i = .otherError m := by simpa using hk
    rw [download_loop_other_step hk2]
  | succ kk ih =>
    intro n i le hret hk hn
    obtain ⟨n2, rfl⟩ : ∃ n2, n = n2 + 1 := ⟨n - 1, by omega⟩
    have hr0 : retriable (att i) := by
      have := hret 0 (by omega)
      simpa using this
    have hret2 : ∀ j, j < kk → retriable (att (i + 1 + j)) := by
      intro j hj
      have := hret (j + 1) (by omega)
      have heq : i + (j + 1) = i + 1 + j := by omega
      rw [heq] at this
      exact this
    have hk2 : att (i + 1 + kk) = .otherError m := by
      have heq : i + (kk + 1) = i + 1 + kk := by omega
      rw [heq] at hk
      exact hk
    have hn2 : kk < n2 := by omega
    cases hai : att i with
    | success body =>
      rw [hai] at hr0
      exact absurd hr0 (by simp [retriable])
    | otherError m2 =>
      rw [hai] at hr0
      exact absurd hr0 (by simp [retriable])
    | urlError m2 =>
      rw [download_loop_url_retry hai, ih n2 (i + 1) (some m2) hret2 hk2 hn2]
      congr 1
      omega
    | httpError code reason bp =>
      rw [hai] at hr0
      have hcode : ¬(400 ≤ code ∧ code < 500 ∧ code ≠ 429) := by
        simpa [retriable] using hr0
      rw [download_loop_http_retry hai hcode,
        ih n2 (i + 1) (some (httpErrorText code reason bp)) hret2 hk2 hn2]
      congr 1
      omega

/-! ## Claim C5 -/

/-- Claim C5: `download_url` classifies failures as terminal versus
retriable.  (1) HTTP 404 on the first attempt makes exactly 1 attempt and
raises; (2) HTTP 503 on every attempt makes exactly `max_retries` attempts
before raising; (3) HTTP 429 is retried; (4) connection errors and timeouts
(`URLError`/`socket.timeout`) are retried; (5) any other exception ends the
retry loop right after the attempt in which it occurs. -/
theorem C5_retry_classification :
    (∀ (att : Nat → AttemptResult) (url : String) (t mr : Nat) (r : String)
        (b : Except String String), 1 ≤ mr → att 0 = .httpError 404 r b →
      download_url att url t mr =
        .raised (failMsg url mr (some (httpErrorText 404 r b))) 1) ∧
    (∀ (att : Nat → AttemptResult) (url : String) (t mr : Nat) (r : String)
        (b : Except String String), 1 ≤ mr → (∀ j, att j = .httpError 503 r b) →
      download_url att url t mr =
        .raised (failMsg url mr (some (httpErrorText 503 r b))) mr) ∧
    (∀ (att : Nat → AttemptResult) (url : String) (t mr : Nat) (r : String)
        (b : Except String String) (body : String), 2 ≤ mr →
      att 0 = .httpError 429 r b → att 1 = .success body →
      download_url att url t mr = .ok body 2) ∧
    (∀ (att : Nat → AttemptResult) (url : String) (t mr : Nat) (m body : String),
      2 ≤ mr → att 0 = .urlError m → att 1 = .success body →
      download_url att url t mr = .ok body 2) ∧
    (∀ (att : Nat → AttemptResult) (url : String) (t mr k : Nat) (m : String),
      k < mr → (∀ j, j < k → retriable (att j)) → att k = .otherError m →
      download_url att url t mr = .raised (failMsg url mr (some m)) (k + 1)) := by
  refine ⟨?_, ?_, ?_, ?_, ?_⟩
  · intro att url t mr r b hmr h0
    obtain ⟨n, rfl⟩ : ∃ n, mr = n + 1 := ⟨mr - 1, by omega⟩
    unfold download_url
    rw [download_loop_http_terminal h0 (by omega)]
  · intro att url t mr r b hmr hall
    obtain ⟨n, rfl⟩ : ∃ n, mr = n + 1 := ⟨mr - 1, by omega⟩
    unfold download_url
    rw [download_loop_all503 att url (n + 1) r b hall n 0 none]
    congr 1
    omega
  · intro att url t mr r b body hmr h0 h1
    obtain ⟨n, rfl⟩ : ∃ n, mr = n + 2 := ⟨mr - 2, by omega⟩
    unfold download_url
    rw [show n + 2 = (n + 1) + 1 from rfl,
      download_loop_http_retry h0 (by omega), download_loop_success h1]
  · intro att url t mr m body hmr h0 h1
    obtain ⟨n, rfl⟩ : ∃ n, mr = n + 2 := ⟨mr - 2, by omega⟩
    unfold download_url
    rw [show n + 2 = (n + 1) + 1 from rfl,
      download_loop_url_retry h0, download_loop_success h1]
  · intro att url t mr k m hk hret hother
    unfold download_url
    have := download_loop_other att url mr m k mr 0 none
      (by intro j hj; simpa using hret j hj) (by simpa using hother) hk
    simpa using this

/-- Witness for C5: all five classifications at concrete attempt oracles
with `max_retries = 3`. -/
theorem C5_retry_classification_witness :
    download_url (fun _ => .httpError 404 "Not Found" (.ok "nope")) "u" 30 3 =
      .raised (failMsg "u" 3 (some (httpErrorText 404 "Not Found" (.ok "nope")))) 1 ∧
    download_url (fun _ => .httpError 503 "Unavailable" (.ok "wait")) "u" 30 3 =
      .raised (failMsg "u" 3 (some (httpErrorText 503 "Unavailable" (.ok "wait")))) 3 ∧
    download_url (fun i => if i = 0 then .httpError 429 "Too Many" (.ok "slow")
      else .success "body") "u" 30 3 = .ok "body" 2 ∧
    download_url (fun i => if i = 0 then .urlError "timed out" else .success "body")
      "u" 30 3 = .ok "body" 2 ∧
    download_url (fun _ => .otherError "boom") "u" 30 3 =
      .raised (failMsg "u" 3 (some "boom")) 1 :=
  ⟨C5_retry_classification.1 _ "u" 30 3 "Not Found" (.ok "nope") (by omega) rfl,
   C5_retry_classification.2.1 _ "u" 30 3 "Unavailable" (.ok "wait") (by omega)
     (fun _ => rfl),
   C5_retry_classification.2.2.1 _ "u" 30 3 "Too Many" (.ok "slow") "body" (by omega)
     rfl rfl,
   C5_retry_classification.2.2.2.1 _ "u" 30 3 "timed out" "body" (by omega) rfl rfl,
   C5_retry_classification.2.2.2.2 _ "u" 30 3 0 "boom" (by omega)
     (fun j hj => absurd hj (by omega)) rfl⟩

/-! ## Claim C6 -/

/-- Claim C6 counterexample: `download_url` returns a zero-length body of a
successful response as an ordinary successful result — there is no
empty-content check — refuting the claim that an empty body is treated as a
failure. -/
theorem C6_counterexample :
    download_url (fun _ => .success "") "https://example.com/list.m3u" 30 3 =
      .ok "" 1 := rfl

/-- Claim C6 (amended): a fetch whose HTTP response is successful but whose
body has zero length is returned as a successful empty string after a single
attempt; `download_url` performs no empty-content check. -/
theorem C6_empty_body_is_success (att : Nat → AttemptResult) (url : String) (t mr : Nat)
    (hmr : 1 ≤ mr) (h0 : att 0 = .success "") :
    download_url att url t mr = .ok "" 1 := by
  obtain ⟨n, rfl⟩ : ∃ n, mr = n + 1 := ⟨mr - 1, by omega⟩
  simp [download_url, download_url_loop, h0]

/-- Witness for the amended C6 at a concrete oracle. -/
theorem C6_empty_body_is_success_witness :
    download_url (fun _ => .success "") "u" 30 3 = .ok "" 1 :=
  C6_empty_body_is_success _ "u" 30 3 (by omega) rfl

/-! ## Claim C1 -/

/-- Claim C1: for every argument configuration that passes CLI validation
(at least one `--url` or `--input`), `main` creates the output directory and
then raises an unhandled `NameError` — the name `p` is unbound when
`args = p.parse_args()` (line 465) executes inside `main` — before any
remote source is fetched, any local file is read, or any output file is
written; no run of `main` reaches the source-processing loops. -/
theorem C1_main_raises_NameError (w : World) (a : CliArgs)
    (hvalid : a.url ≠ [] ∨ a.input ≠ []) :
    main w a = ([Event.mkdirOut a.out_dir], RunResult.pythonError "NameError") ∧
    nameResolvesInMain "p" = false ∧
    (∀ u, Event.fetch u ∉ (main w a).1) ∧
    (∀ fp, Event.readLocal fp ∉ (main w a).1) ∧
    (∀ nm, Event.writeOut nm ∉ (main w a).1) := by
  have hcond : ¬(a.url = [] ∧ a.input = []) := by
    rcases hvalid with h | h <;> simp [h]
  have hparse : parse_arguments a = .ok a := by
    unfold parse_arguments
    rw [if_neg hcond]
  have hmain : main w a = ([Event.mkdirOut a.out_dir], .pythonError "NameError") := by
    unfold main
    rw [hparse]
    rfl
  refine ⟨hmain, rfl, ?_, ?_, ?_⟩ <;> (intro x; rw [hmain]; simp)

/-- Witness for C1 at a concrete world and argument configuration. -/
theorem C1_main_raises_NameError_witness :
    main (World.mk (fun _ => none) (fun _ => false) (fun _ => none) true)
        { defaultArgs with url := ["https://example.com/list.m3u"] } =
      ([Event.mkdirOut "."], RunResult.pythonError "NameError") :=
  (C1_main_raises_NameError _ _ (Or.inl (by simp))).1

/-! ## Claim C9 -/

/-- Claim C9 counterexample: a run whose only source fails to resolve (the
oracle fails every fetch) does not exit with code 3 — it dies in the
`NameError` — refuting the claimed exit code. -/
theorem C9_counterexample :
    (∀ u, (World.mk (fun _ => none) (fun _ => false) (fun _ => none) true).fetchGateways u
      = none) ∧
    (main (World.mk (fun _ => none) (fun _ => false) (fun _ => none) true)
        { defaultArgs with url := ["https://example.com/list.m3u"] }).2 ≠
      RunResult.exited 3 := by
  constructor
  · intro u
    rfl
  · rw [show (main (World.mk (fun _ => none) (fun _ => false) (fun _ => none) true)
        { defaultArgs with url := ["https://example.com/list.m3u"] }).2 =
          RunResult.pythonError "NameError" from rfl]
    decide

/-- Claim C9 (amended): when zero sources resolve (every fetch fails and
every local file is missing or unreadable), the combining step is never
reached and no output file is written — but the process terminates with the
unhandled `NameError` of line 465 (interpreter exit status 1), not with exit
code 3; no `sys.exit(3)` for total failure exists in the code. -/
theorem C9_no_combine_no_write_not_exit3 (w : World) (a : CliArgs)
    (hvalid : a.url ≠ [] ∨ a.input ≠ [])
    (_hfetch : ∀ u, w.fetchGateways u = none)
    (_hread : ∀ fp, w.fileExists fp = false ∨ w.readFile fp = none) :
    (main w a).2 ≠ RunResult.exited 3 ∧
    (main w a).2 = RunResult.pythonError "NameError" ∧
    Event.combineStep ∉ (main w a).1 ∧
    (∀ nm, Event.writeOut nm ∉ (main w a).1) := by
  have hcond : ¬(a.url = [] ∧ a.input = []) := by
    rcases hvalid with h | h <;> simp [h]
  have hparse : parse_arguments a = .ok a := by
    unfold parse_arguments
    rw [if_neg hcond]
  have hmain : main w a = ([Event.mkdirOut a.out_dir], .pythonError "NameError") := by
    unfold main
    rw [hparse]
    rfl
  refine ⟨?_, ?_, ?_, ?_⟩
  · rw [hmain]
    simp
  · rw [hmain]
  · rw [hmain]
    simp
  · intro nm
    rw [hmain]
    simp

/-- Witness for the amended C9 at a concrete world and configuration. -/
theorem C9_no_combine_no_write_not_exit3_witness :
    (main (World.mk (fun _ => none) (fun _ => false) (fun _ => none) true)
        { defaultArgs with input := ["missing.m3u"] }).2 ≠ RunResult.exited 3 ∧
    Event.combineStep ∉
      (main (World.mk (fun _ => none) (fun _ => false) (fun _ => none) true)
        { defaultArgs with input := ["missing.m3u"] }).1 := by
  have h := C9_no_combine_no_write_not_exit3
    (World.mk (fun _ => none) (fun _ => false) (fun _ => none) true)
    { defaultArgs with input := ["missing.m3u"] }
    (Or.inr (by simp)) (fun _ => rfl) (fun _ => Or.inl rfl)
  exact ⟨h.1, h.2.2.1⟩

/-! ## Claim C2 -/

set_option maxRecDepth 8192 in
/-- Claim C2 counterexample: the rewrite is not idempotent.  On the text
`acestream://` + 37 zeros + `acestream://` + 40 `f`s (with the default
target host and port), the first application leaves the trailing
`acestream://ffff…` untouched inside the canonical replacement's
query parameter, where it abuts the hash's final `…ace`; the second
application then rewrites that newly exposed `acestream://`+40-hex span, so
applying the rewrite to its own output changes the text again. -/
theorem C2_counterexample :
    replace_acestream_and_existing
        "acestream://0000000000000000000000000000000000000acestream://ffffffffffffffffffffffffffffffffffffffff"
        "127.0.0.1" 6878 =
      "http://127.0.0.1:6878/ace/getstream?id=0000000000000000000000000000000000000acestream://ffffffffffffffffffffffffffffffffffffffff" ∧
    replace_acestream_and_existing
        "http://127.0.0.1:6878/ace/getstream?id=0000000000000000000000000000000000000acestream://ffffffffffffffffffffffffffffffffffffffff"
        "127.0.0.1" 6878 ≠
      "http://127.0.0.1:6878/ace/getstream?id=0000000000000000000000000000000000000acestream://ffffffffffffffffffffffffffffffffffffffff" := by
  constructor
  · decide
  · decide

/-- Claim C2 (amended): the rewrite is idempotent on single-identifier
surface-form texts (with the default target host and port): re-running it on
its own output yields the identical text, and the canonical form is a
fixpoint.  (Full idempotence over arbitrary texts fails, see the
counterexample.) -/
theorem C2_idempotent_on_surface_forms (idS : String) (hid : hex40 idS) :
    replace_acestream_and_existing
        (replace_acestream_and_existing ("acestream://" ++ idS) "127.0.0.1" 6878)
        "127.0.0.1" 6878 =
      replace_acestream_and_existing ("acestream://" ++ idS) "127.0.0.1" 6878 ∧
    replace_acestream_and_existing
        (replace_acestream_and_existing ("example.com:8080/" ++ idS) "127.0.0.1" 6878)
        "127.0.0.1" 6878 =
      replace_acestream_and_existing ("example.com:8080/" ++ idS) "127.0.0.1" 6878 ∧
    replace_acestream_and_existing
        (replace_acestream_and_existing ("example.com:8080/ace/getstream?id=" ++ idS)
          "127.0.0.1" 6878) "127.0.0.1" 6878 =
      replace_acestream_and_existing ("example.com:8080/ace/getstream?id=" ++ idS)
        "127.0.0.1" 6878 ∧
    replace_acestream_and_existing (canonicalStr "127.0.0.1" 6878 idS) "127.0.0.1" 6878 =
      canonicalStr "127.0.0.1" 6878 idS := by
  have hH : hostOk "127.0.0.1" := ⟨by decide, by decide⟩
  have hP : portOk 6878 := ⟨by decide, by decide, by decide⟩
  refine ⟨?_, ?_, ?_, rewrite_canonical_fixpoint hid⟩
  · rw [rewrite_ace_form hH hP hid]
    exact rewrite_canonical_fixpoint hid
  · rw [rewrite_bare_form hid]
    exact rewrite_canonical_fixpoint hid
  · rw [rewrite_lit_form hid]
    exact rewrite_canonical_fixpoint hid

/-- Witness for the amended C2 at the concrete identifier from the spec. -/
theorem C2_idempotent_on_surface_forms_witness :
    replace_acestream_and_existing
        (replace_acestream_and_existing
          ("acestream://" ++ "2773b39926d15dd3d9495d94c4050604792d7031") "127.0.0.1" 6878)
        "127.0.0.1" 6878 =
      replace_acestream_and_existing
        ("acestream://" ++ "2773b39926d15dd3d9495d94c4050604792d7031") "127.0.0.1" 6878 :=
  (C2_idempotent_on_surface_forms "2773b39926d15dd3d9495d94c4050604792d7031"
    ⟨by decide, by decide⟩).1

/-! ## Claim C3 -/

/-- Claim C3 counterexample: the recognizer does perform partial matches on
longer hexadecimal runs.  A 41-hex-character run after `acestream://` has
its first 40 characters extracted and rewritten (the 41st survives after the
rewritten span), because neither pattern carries a boundary assertion after
`HEX40`. -/
theorem C3_counterexample :
    replace_acestream_and_existing
        "acestream://aaaaaaaaaaaaaaaaaaaaaaaaaaaaaaaaaaaaaaaaa" "127.0.0.1" 6878 =
      "http://127.0.0.1:6878/ace/getstream?id=aaaaaaaaaaaaaaaaaaaaaaaaaaaaaaaaaaaaaaaa" ++
        "a" ∧
    replace_acestream_and_existing
        "acestream://aaaaaaaaaaaaaaaaaaaaaaaaaaaaaaaaaaaaaaaaa" "127.0.0.1" 6878 ≠
      "acestream://aaaaaaaaaaaaaaaaaaaaaaaaaaaaaaaaaaaaaaaaa" := by
  constructor
  · decide
  · decide

/-- Claim C3 (amended): every rewritten span contains an identifier of
exactly 40 hex characters, but that identifier may be a proper prefix of a
longer hexadecimal run: `acestream://` followed by 40 hex characters and a
further hex character has its first 40 characters extracted and rewritten,
the extra character remaining in place after the canonical span. -/
theorem C3_first40_of_longer_hex_run (idS : String) (c : Char)
    (hid : hex40 idS) (hc : isHexCh c = true) :
    replace_acestream_and_existing ("acestream://" ++ idS ++ String.mk [c])
        "127.0.0.1" 6878 =
      canonicalStr "127.0.0.1" 6878 idS ++ String.mk [c] := by
  obtain ⟨hlen, hhex⟩ := hid
  have hdata : ("acestream://" ++ idS ++ String.mk [c]).data =
      aceLit ++ (idS.data ++ [c]) := by
    rw [String.data_append, String.data_append, List.append_assoc]
    rfl
  have hm : tryAceAt (("acestream://" ++ idS ++ String.mk [c]).data) =
      some (idS.data, [c]) := by
    rw [hdata]
    exact tryAceAt_match hlen hhex
  have hlenL : ("acestream://" ++ idS ++ String.mk [c]).data.length = 52 + 1 := by
    rw [hdata, List.length_append, List.length_append, hlen,
      show aceLit.length = 12 from rfl]
    rfl
  unfold replace_acestream_and_existing
  rw [hlenL, subAceF_match hm,
    subAceF_step (tryAceAt_none_of_hex (by simp [hc])), subAceF_nil]
  have hshape : canonicalL "127.0.0.1".data 6878 idS.data =
      "http://127.0.0.1:6878/ace/getstream?id=".data ++ idS.data := rfl
  have hcl : (canonicalL "127.0.0.1".data 6878 idS.data).length = 79 := by
    rw [hshape, List.length_append, hlen]
    rfl
  have hg : (canonicalL "127.0.0.1".data 6878 idS.data ++ [c]).length = 78 + 1 + 1 := by
    rw [List.length_append, hcl]
    rfl
  show String.mk (subHostPortF "127.0.0.1".data 6878
    (canonicalL "127.0.0.1".data 6878 idS.data ++ [c]).length
    (canonicalL "127.0.0.1".data 6878 idS.data ++ [c])) = _
  have hmatch2 : tryHostPortAt (canonicalL "127.0.0.1".data 6878 idS.data ++ [c]) =
      some ("http://".data ++
        ("127.0.0.1".data ++ ':' :: intToStr 6878 ++ '/' :: gsLit ++ idS.data),
        idS.data, [c]) := by
    rw [show canonicalL "127.0.0.1".data 6878 idS.data ++ [c] =
          "http://".data ++ "127.0.0.1".data ++ ':' :: intToStr 6878 ++ '/' :: gsLit ++
            (idS.data ++ [c]) by simp [canonicalL]]
    exact tryHostPortAt_canonical_tail (by decide) (by decide) (by decide) (by decide)
      (by decide) hlen hhex
  rw [hg, subHostPortF_match hmatch2, subHostPortF_single_hex hc,
    if_neg (hex40_ne_nil ⟨hlen, hhex⟩)]
  rw [str_append_mk]
  rfl

/-- Witness for the amended C3 at the 41-`a` run. -/
theorem C3_first40_of_longer_hex_run_witness :
    replace_acestream_and_existing
        ("acestream://" ++ "aaaaaaaaaaaaaaaaaaaaaaaaaaaaaaaaaaaaaaaa" ++ String.mk ['a'])
        "127.0.0.1" 6878 =
      canonicalStr "127.0.0.1" 6878 "aaaaaaaaaaaaaaaaaaaaaaaaaaaaaaaaaaaaaaaa" ++
        String.mk ['a'] :=
  C3_first40_of_longer_hex_run "aaaaaaaaaaaaaaaaaaaaaaaaaaaaaaaaaaaaaaaa" 'a'
    ⟨by decide, by decide⟩ (by decide)

/-! ## Claim C4 -/

/-- Claim C4: for every valid 40-hex identifier, rewriting each of the three
surface syntaxes — `acestream://ID`, `host:port/ID`, and
`host:port/ace/getstream?id=ID`, with or without an `http`/`https` scheme
prefix — with a well-formed target host and port produces the identical
canonical string `http://{host}:{port}/ace/getstream?id={ID}`. -/
theorem C4_three_syntaxes_canonical (hS : String) (p : Int) (idS : String)
    (hH : hostOk hS) (hP : portOk p) (hid : hex40 idS) :
    replace_acestream_and_existing ("acestream://" ++ idS) hS p = canonicalStr hS p idS ∧
    replace_acestream_and_existing ("example.com:8080/" ++ idS) hS p =
      canonicalStr hS p idS ∧
    replace_acestream_and_existing ("http://example.com:8080/" ++ idS) hS p =
      canonicalStr hS p idS ∧
    replace_acestream_and_existing ("https://example.com:8080/" ++ idS) hS p =
      canonicalStr hS p idS ∧
    replace_acestream_and_existing ("example.com:8080/ace/getstream?id=" ++ idS) hS p =
      canonicalStr hS p idS ∧
    replace_acestream_and_existing ("http://example.com:8080/ace/getstream?id=" ++ idS)
        hS p = canonicalStr hS p idS ∧
    canonicalStr hS p idS =
      "http://" ++ hS ++ ":" ++ String.mk (intToStr p) ++ "/ace/getstream?id=" ++ idS :=
  ⟨rewrite_ace_form hH hP hid, rewrite_bare_form hid, rewrite_http_form hid,
    rewrite_https_form hid, rewrite_lit_form hid, rewrite_http_lit_form hid,
    canonicalStr_spell hS p idS⟩

/-- Witness for C4: the spec's concrete scenario,
`acestream://2773b…7031` at host `127.0.0.1`, port `6878`. -/
theorem C4_three_syntaxes_canonical_witness :
    replace_acestream_and_existing
        ("acestream://" ++ "2773b39926d15dd3d9495d94c4050604792d7031") "127.0.0.1" 6878 =
      "http://127.0.0.1:6878/ace/getstream?id=2773b39926d15dd3d9495d94c4050604792d7031" :=
  ((C4_three_syntaxes_canonical "127.0.0.1" 6878 "2773b39926d15dd3d9495d94c4050604792d7031"
    ⟨by decide, by decide⟩ ⟨by decide, by decide, by decide⟩ ⟨by decide, by decide⟩).1).trans
    (by decide)

/-! ## Claim C10 -/

/-- Claim C10: the rewriter preserves the case of the matched identifier:
for every 40-hex identifier (uppercase or mixed case included) in the
`acestream://` or `…/ace/getstream?id=` surface form, the canonical output
carries the identifier byte-identically (no lowercase normalisation). -/
theorem C10_case_preserved (hS : String) (p : Int) (idS : String)
    (hH : hostOk hS) (hP : portOk p) (hid : hex40 idS) :
    replace_acestream_and_existing ("acestream://" ++ idS) hS p =
      "http://" ++ hS ++ ":" ++ String.mk (intToStr p) ++ "/ace/getstream?id=" ++ idS ∧
    replace_acestream_and_existing ("example.com:8080/ace/getstream?id=" ++ idS) hS p =
      "http://" ++ hS ++ ":" ++ String.mk (intToStr p) ++ "/ace/getstream?id=" ++ idS := by
  constructor
  · rw [rewrite_ace_form hH hP hid]
    exact canonicalStr_spell hS p idS
  · rw [rewrite_lit_form hid]
    exact canonicalStr_spell hS p idS

/-! ## Lemmas about `suffixFromInfix` and `splitOnFirst` for the gateway model -/

theorem sfi_none {p : Char} {ps s : List Char} (hs : ∀ c ∈ s, ¬(c = p)) :
    suffixFromInfix (p :: ps) s = none := by
  induction s with
  | nil => rfl
  | cons c cs ih =>
    have hc : ¬(c = p) := hs c (by simp)
    have hpre : isPrefixL (p :: ps) (c :: cs) = false := by
      show (decide (p = c) && isPrefixL ps cs) = false
      rw [decide_eq_false (by intro h; exact hc h.symm)]
      rfl
    simp [suffixFromInfix, hpre, ih (fun d hd => hs d (by simp [hd]))]

theorem splitOnFirst_no_sep {sep : Char} {s : List Char} (hs : ∀ c ∈ s, ¬(c = sep)) :
    splitOnFirst sep s = (s, []) := by
  induction s with
  | nil => rfl
  | cons c cs ih =>
    have hc : ¬(c = sep) := hs c (by simp)
    simp [splitOnFirst, hc, ih (fun d hd => hs d (by simp [hd]))]

/-! ## Lemmas about `pyStrip`, `pyJoin` and `countInfix` for the combiner -/

theorem pyJoin_two (sep x y : String) : pyJoin sep [x, y] = x ++ sep ++ y := rfl

theorem pyStrip_no_edge_ws {c0 cl : Char} {x : List Char}
    (h0 : isPySpace c0 = false) (hl : isPySpace cl = false) :
    pyStrip (String.mk (c0 :: (x ++ [cl]))) = String.mk (c0 :: (x ++ [cl])) := by
  unfold pyStrip
  rw [show (String.mk (c0 :: (x ++ [cl]))).data = c0 :: (x ++ [cl]) from rfl]
  rw [List.dropWhile_cons_of_neg (by simp [h0])]
  rw [show (c0 :: (x ++ [cl])).reverse = cl :: (x.reverse ++ [c0]) by
    simp [List.reverse_cons, List.reverse_append]]
  rw [List.dropWhile_cons_of_neg (by simp [hl])]
  rw [show (cl :: (x.reverse ++ [c0])).reverse = c0 :: (x ++ [cl]) by
    simp [List.reverse_cons, List.reverse_append]]

theorem countInfix_hit_marker {cs : List Char}
    (h : isPrefixL "#EXTM3U".data ('#' :: cs) = true) :
    countInfix "#EXTM3U".data ('#' :: cs) = 1 + countInfix "#EXTM3U".data cs := by
  simp [countInfix, h]

theorem countInfix_marker_skip {x t : List Char} (hx : ∀ c ∈ x, ¬(c = '#')) :
    countInfix "#EXTM3U".data (x ++ t) = countInfix "#EXTM3U".data t := by
  induction x with
  | nil => rfl
  | cons c cs ih =>
    have hne : ¬(c = '#') := hx c (by simp)
    have hpre : isPrefixL "#EXTM3U".data (c :: (cs ++ t)) = false := by
      show (decide ('#' = c) && isPrefixL "EXTM3U".data (cs ++ t)) = false
      rw [decide_eq_false (by intro h; exact hne h.symm)]
      rfl
    rw [show (c :: cs) ++ t = c :: (cs ++ t) from rfl]
    rw [show countInfix "#EXTM3U".data (c :: (cs ++ t)) =
      (if isPrefixL "#EXTM3U".data (c :: (cs ++ t)) then 1 else 0) +
        countInfix "#EXTM3U".data (cs ++ t) from rfl]
    rw [hpre]
    rw [ih (fun d hd => hx d (by simp [hd]))]
    simp

theorem countInfix_marker_zero {s : List Char} (hs : ∀ c ∈ s, ¬(c = '#')) :
    countInfix "#EXTM3U".data s = 0 := by
  have := countInfix_marker_skip (t := []) hs
  rw [List.append_nil] at this
  rw [this]
  rfl

theorem countInfix_two_markers {mid tail2 : List Char}
    (hmid : ∀ c ∈ mid, ¬(c = '#')) (htail : ∀ c ∈ tail2, ¬(c = '#')) :
    countInfix "#EXTM3U".data
      ('#' :: ("EXTM3U\n".data ++ (mid ++ ('#' :: ("EXTM3U\n".data ++ tail2))))) = 2 := by
  rw [countInfix_hit_marker (by rfl)]
  rw [countInfix_marker_skip (by decide)]
  rw [countInfix_marker_skip hmid]
  rw [countInfix_hit_marker (by rfl)]
  rw [countInfix_marker_skip (by decide)]
  rw [countInfix_marker_zero htail]

/-! ## Claim C8 -/

/-- Claim C8 counterexample: the combiner performs no playlist-marker
normalisation.  Two parts each starting with `#EXTM3U` are joined with a
blank line and both markers survive: the combined output contains the marker
twice, not exactly once. -/
theorem C8_counterexample :
    combineParts ["#EXTM3U\nA", "#EXTM3U\nB"] = "#EXTM3U\nA\n\n#EXTM3U\nB" ∧
    countInfix "#EXTM3U".data ("#EXTM3U\nA\n\n#EXTM3U\nB").data = 2 := by
  constructor
  · decide
  · decide

/-- Claim C8 (amended): the combining expression of `main` only strips
surrounding whitespace, drops whitespace-only parts and joins with a blank
line; it emits no marker of its own and removes none.  For two parts that
begin with the marker line (with `#`-free remainders and a non-whitespace
final character), the combined output is the verbatim blank-line join and
contains the marker exactly twice — once per part. -/
theorem C8_no_marker_normalisation (a b : List Char) (ca cb : Char)
    (hca : isPySpace ca = false) (hcb : isPySpace cb = false)
    (ha : ∀ c ∈ a, ¬(c = '#')) (hb : ∀ c ∈ b, ¬(c = '#'))
    (hca2 : ¬(ca = '#')) (hcb2 : ¬(cb = '#')) :
    combineParts [String.mk ("#EXTM3U\n".data ++ (a ++ [ca])),
        String.mk ("#EXTM3U\n".data ++ (b ++ [cb]))] =
      String.mk ("#EXTM3U\n".data ++ (a ++ [ca]) ++ "\n\n".data ++
        ("#EXTM3U\n".data ++ (b ++ [cb]))) ∧
    countInfix "#EXTM3U".data
      (("#EXTM3U\n".data ++ (a ++ [ca]) ++ "\n\n".data ++
        ("#EXTM3U\n".data ++ (b ++ [cb])))) = 2 := by
  have hshape1 : String.mk ("#EXTM3U\n".data ++ (a ++ [ca])) =
      String.mk ('#' :: (("EXTM3U\n".data ++ a) ++ [ca])) := rfl
  have hshape2 : String.mk ("#EXTM3U\n".data ++ (b ++ [cb])) =
      String.mk ('#' :: (("EXTM3U\n".data ++ b) ++ [cb])) := rfl
  have hs1 : pyStrip (String.mk ("#EXTM3U\n".data ++ (a ++ [ca]))) =
      String.mk ("#EXTM3U\n".data ++ (a ++ [ca])) := by
    rw [hshape1]
    exact pyStrip_no_edge_ws (by rfl) hca
  have hs2 : pyStrip (String.mk ("#EXTM3U\n".data ++ (b ++ [cb]))) =
      String.mk ("#EXTM3U\n".data ++ (b ++ [cb])) := by
    rw [hshape2]
    exact pyStrip_no_edge_ws (by rfl) hcb
  have hne1 : pyStrip (String.mk ("#EXTM3U\n".data ++ (a ++ [ca]))) ≠ "" := by
    rw [hs1]
    apply str_ne_of_data_ne
    simp
  have hne2 : pyStrip (String.mk ("#EXTM3U\n".data ++ (b ++ [cb]))) ≠ "" := by
    rw [hs2]
    apply str_ne_of_data_ne
    simp
  constructor
  · unfold combineParts
    rw [List.filter_cons_of_pos (by simp only [decide_eq_true_eq]; exact hne1),
      List.filter_cons_of_pos (by simp only [decide_eq_true_eq]; exact hne2),
      List.filter_nil]
    rw [List.map_cons, List.map_cons, List.map_nil, hs1, hs2, pyJoin_two]
    rw [str_append_mk, str_append_mk]
  · rw [show ("#EXTM3U\n".data ++ (a ++ [ca]) ++ "\n\n".data ++
        ("#EXTM3U\n".data ++ (b ++ [cb]))) =
      '#' :: ("EXTM3U\n".data ++ ((a ++ [ca] ++ "\n\n".data) ++
        ('#' :: ("EXTM3U\n".data ++ (b ++ [cb]))))) from by simp [List.append_assoc]]
    refine (countInfix_two_markers ?_ ?_)
    · intro c hc
      rcases List.mem_append.mp hc with hc | hc
      · rcases List.mem_append.mp hc with hc | hc
        · exact ha c hc
        · rw [List.mem_singleton.mp hc]
          exact hca2
      · intro hcc
        rw [hcc] at hc
        simp at hc
    · intro c hc
      rcases List.mem_append.mp hc with hc | hc
      · exact hb c hc
      · rw [List.mem_singleton.mp hc]
        exact hcb2

/-- Witness for the amended C8 at concrete parts `#EXTM3U\nXY` and
`#EXTM3U\nZW`. -/
theorem C8_no_marker_normalisation_witness :
    combineParts [String.mk ("#EXTM3U\n".data ++ (['X'] ++ ['Y'])),
        String.mk ("#EXTM3U\n".data ++ (['Z'] ++ ['W']))] =
      String.mk ("#EXTM3U\n".data ++ (['X'] ++ ['Y']) ++ "\n\n".data ++
        ("#EXTM3U\n".data ++ (['Z'] ++ ['W']))) :=
  (C8_no_marker_normalisation ['X'] ['Z'] 'Y' 'W' (by decide) (by decide)
    (by decide) (by decide) (by decide) (by decide)).1

/-! ## Claim C7 -/

set_option maxRecDepth 8192 in
/-- Claim C7 counterexample: the gateway candidates do not carry the query
exactly once.  `ipfs_path` is sliced from the raw URL (`original_url[idx:]`)
and therefore already contains `?x=1`, and the query segment is appended
again, so every candidate carries the query twice. -/
theorem C7_counterexample :
    (altGatewayCandidates "https://ipfs.io/ipfs/bafyabc?x=1").head? =
      some "https://cloudflare-ipfs.com/ipfs/bafyabc?x=1?x=1" ∧
    countInfix "?x=1".data "https://cloudflare-ipfs.com/ipfs/bafyabc?x=1?x=1".data = 2 := by
  constructor
  · decide
  · decide

/-- Claim C7 (amended): for a namespace URL carrying a query, every
alternative-gateway candidate consists of the gateway host followed by the
namespace path — which, being sliced from the raw URL, already contains the
query — with the query appended once more: the query appears twice in each
candidate, not once.  The original gateway (ipfs.io) is skipped only in the
second loop, having already been produced by the first. -/
theorem C7_candidates_duplicate_query (q : String) (hne : q.data ≠ [])
    (hq : ∀ c ∈ q.data, ¬(c = '/' ∨ c = '?' ∨ c = '#')) :
    altGatewayCandidates ("https://ipfs.io/ipfs/bafyabc?" ++ q) =
      ["https://cloudflare-ipfs.com/ipfs/bafyabc?" ++ q ++ "?" ++ q,
       "https://dweb.link/ipfs/bafyabc?" ++ q ++ "?" ++ q,
       "https://gateway.pinata.cloud/ipfs/bafyabc?" ++ q ++ "?" ++ q,
       "https://ipfs.io/ipfs/bafyabc?" ++ q ++ "?" ++ q,
       "https://cloudflare-ipfs.com/ipfs/bafyabc?" ++ q ++ "?" ++ q,
       "https://dweb.link/ipfs/bafyabc?" ++ q ++ "?" ++ q,
       "https://gateway.pinata.cloud/ipfs/bafyabc?" ++ q ++ "?" ++ q] := by
  have hq1 : ∀ c ∈ q.data, ¬(c = '/') := fun c hc h => hq c hc (Or.inl h)
  have hq2 : ∀ c ∈ q.data, ¬(c = '#') := fun c hc h => hq c hc (Or.inr (Or.inr h))
  have hneS : String.mk q.data ≠ "" := by
    intro h
    apply hne
    have h2 := congrArg String.data h
    simpa using h2
  have hend : suffixFromInfix "/ipns/".data q.data = none := sfi_none hq1
  have hsplit : splitOnFirst '#' q.data = (q.data, []) := splitOnFirst_no_sep hq2
  simp +decide [List.cons_append] at hend hsplit
  rw [str_append_mk]
  simp +decide [altGatewayCandidates, urlparse, ipfsPathOf, containsStr, containsL,
    suffixFromInfix, isPrefixL, stripPrefixL, splitOnFirst, List.takeWhile, List.dropWhile,
    lowerStr, Char.toLower, ALTERNATIVE_GATEWAYS, candidateUrl, rstripSlash,
    hend, hsplit, hneS, str_append_mk, String.data_append, List.cons_append,
    List.append_assoc]

/-- Witness for the amended C7 at the query `x=1`. -/
theorem C7_candidates_duplicate_query_witness :
    altGatewayCandidates ("https://ipfs.io/ipfs/bafyabc?" ++ "x=1") =
      ["https://cloudflare-ipfs.com/ipfs/bafyabc?" ++ "x=1" ++ "?" ++ "x=1",
       "https://dweb.link/ipfs/bafyabc?" ++ "x=1" ++ "?" ++ "x=1",
       "https://gateway.pinata.cloud/ipfs/bafyabc?" ++ "x=1" ++ "?" ++ "x=1",
       "https://ipfs.io/ipfs/bafyabc?" ++ "x=1" ++ "?" ++ "x=1",
       "https://cloudflare-ipfs.com/ipfs/bafyabc?" ++ "x=1" ++ "?" ++ "x=1",
       "https://dweb.link/ipfs/bafyabc?" ++ "x=1" ++ "?" ++ "x=1",
       "https://gateway.pinata.cloud/ipfs/bafyabc?" ++ "x=1" ++ "?" ++ "x=1"] :=
  C7_candidates_duplicate_query "x=1" (by decide) (by decide)

/-- Witness for C10 at a mixed-case identifier. -/
theorem C10_case_preserved_witness :
    replace_acestream_and_existing
        ("acestream://" ++ "ABCDEFabcdef0123456789ABCDEFabcdef012345") "127.0.0.1" 6878 =
      "http://" ++ "127.0.0.1" ++ ":" ++ String.mk (intToStr 6878) ++
        "/ace/getstream?id=" ++ "ABCDEFabcdef0123456789ABCDEFabcdef012345" :=
  (C10_case_preserved "127.0.0.1" 6878 "ABCDEFabcdef0123456789ABCDEFabcdef012345"
    ⟨by decide, by decide⟩ ⟨by decide, by decide, by decide⟩ ⟨by decide, by decide⟩).1

end M3U
